import Mathlib

/-!
# wasmproxy: CORS middleware, response filter and websocket tunnel

A shallow embedding of `proxy/main.go`.  Go values are modelled as follows.

* A Go `string` is a Lean `String` (the text is taken to be valid UTF-8).
* `http.Header` (a `map[string][]string`) is an association list; a key is looked
  up by its first entry, `delete` removes every entry of a key, and a `range`
  visits the entries in list order (any order, since the list is arbitrary).
* `http.ResponseWriter` is a record of the live header map, the status and header
  snapshot taken by `WriteHeader`, and the body written so far.
* `*url.URL` is an address into a heap of `url.URL` cells, so that copying a URL
  and writing through a pointer are different things.
* What the network does (the backend's answer to a dial, the client-side upgrade,
  what each connection delivers, which relay direction finishes first) is an
  input of the model: the record `Network`.
-/

namespace Wasmproxy

/-! ## Strings (`strings`, `net`, `net/textproto`) -/

/-- Go `unicode.ToLower`: an ASCII rune is folded by the fixed rule `A-Z ↦ a-z`;
for any other rune the result comes from the Unicode case tables, which are not
part of this repository and are taken as the parameter `table`. -/
def unicodeToLower (table : Char → Char) (r : Char) : Char :=
  if r.toNat < 128 then r.toLower else table r

/-- Go `strings.ToLower`: every rune is mapped by `unicode.ToLower`. -/
def stringsToLower (table : Char → Char) (s : String) : String :=
  String.mk (s.data.map (unicodeToLower table))

/-- Go `strings.Contains s substr`: `substr` occurs as a contiguous run of `s`. -/
def stringsContains (s substr : String) : Bool :=
  decide (substr.data <:+: s.data)

/-- Go `strings.Join elems sep`. -/
def stringsJoin : List String → String → String
  | [], _ => ""
  | [a], _ => a
  | a :: b :: rest, sep => a ++ sep ++ stringsJoin (b :: rest) sep

/-- The bytes `net/textproto` accepts in a header field name (RFC 7230 token). -/
def validHeaderFieldByte (c : Char) : Bool :=
  c.isAlphanum || c ∈ ['!', '#', '$', '%', '&', '*', '+', '-', '.', '^', '_', '|', '~',
    Char.ofNat 39, Char.ofNat 96]

/-- The rewriting loop of `textproto.canonicalMIMEHeaderKey`: upper case at the
start and after each dash, lower case elsewhere. -/
def canonicalLoop : Bool → List Char → List Char
  | _, [] => []
  | upper, c :: cs =>
    let c1 := if upper then c.toUpper else c.toLower
    c1 :: canonicalLoop (c1 == '-') cs

/-- Go `textproto.CanonicalMIMEHeaderKey` (also `http.CanonicalHeaderKey`): a key
holding a byte that is not a valid header field byte is returned unchanged, any
other key is put in canonical case. -/
def CanonicalMIMEHeaderKey (s : String) : String :=
  if s.data.all validHeaderFieldByte then String.mk (canonicalLoop true s.data) else s

/-- Position of the first occurrence of `c`, as `bytealg.IndexByteString`. -/
def indexByte (s : List Char) (c : Char) : Option Nat :=
  let i := s.indexOf c
  if i < s.length then some i else none

/-- Position of the last occurrence of `c`, as `bytealg.LastIndexByteString`. -/
def lastIndexByte (s : List Char) (c : Char) : Option Nat :=
  match indexByte s.reverse c with
  | some i => some (s.length - 1 - i)
  | none => none

/-- Go `net.SplitHostPort`: splits `host:port`, `[host]:port` into host and port;
the error carries the reason text. -/
def SplitHostPort (hostport : String) : Except String (String × String) :=
  let hp := hostport.data
  match lastIndexByte hp ':' with
  | none => .error "missing port in address"
  | some i =>
    if hp.head? = some '[' then
      match indexByte hp ']' with
      | none => .error "missing ']' in address"
      | some e =>
        if e + 1 = hp.length then .error "missing port in address"
        else if e + 1 = i then
          if (indexByte (hp.drop 1) '[').isSome then .error "unexpected '[' in address"
          else if (indexByte (hp.drop (e + 1)) ']').isSome then
            .error "unexpected ']' in address"
          else .ok (String.mk ((hp.take e).drop 1), String.mk (hp.drop (i + 1)))
        else if hp.get? (e + 1) = some ':' then .error "too many colons in address"
        else .error "missing port in address"
    else
      let host := hp.take i
      if (indexByte host ':').isSome then .error "too many colons in address"
      else if (indexByte hp '[').isSome then .error "unexpected '[' in address"
      else if (indexByte hp ']').isSome then .error "unexpected ']' in address"
      else .ok (String.mk host, String.mk (hp.drop (i + 1)))

/-! ## `http.Header` -/

/-- Go `http.Header`: header name to its ordered list of values. -/
abbrev Header := List (String × List String)

namespace Header

/-- The map index `h[key]` with its presence flag: the value list stored under
exactly `key`, if any. -/
def index (h : Header) (key : String) : Option (List String) :=
  match h.find? (fun e => e.1 == key) with
  | some e => some e.2
  | none => none

/-- The builtin `delete(h, key)`. -/
def delete (h : Header) (key : String) : Header :=
  h.filter (fun e => e.1 != key)

/-- The map store `h[key] = vs`: an existing entry is overwritten in place, a new
key is appended. -/
def store (h : Header) (key : String) (vs : List String) : Header :=
  match h.index key with
  | some _ => h.map (fun e => if e.1 == key then (key, vs) else e)
  | none => h ++ [(key, vs)]

/-- Go `Header.Get`: the first value under the canonical key, or `""`. -/
def Get (h : Header) (key : String) : String :=
  match h.index (CanonicalMIMEHeaderKey key) with
  | some (v :: _) => v
  | _ => ""

/-- Go `Header.Set`: the canonical key now holds the single value. -/
def Set (h : Header) (key value : String) : Header :=
  h.store (CanonicalMIMEHeaderKey key) [value]

/-- Go `Header.Add`: the value is appended to those of the canonical key. -/
def Add (h : Header) (key value : String) : Header :=
  h.store (CanonicalMIMEHeaderKey key) ((h.index (CanonicalMIMEHeaderKey key)).getD [] ++ [value])

/-- Go `Header.Del`. -/
def Del (h : Header) (key : String) : Header :=
  h.delete (CanonicalMIMEHeaderKey key)

/-- The header names the map holds. -/
def keys (h : Header) : List String := h.map Prod.fst

end Header

/-! ## Requests, responses and the response writer (`net/http`) -/

/-- Go `url.Userinfo`. -/
structure Userinfo where
  username : String
  password : Option String
  deriving DecidableEq

/-- Go `url.URL`. -/
structure URL where
  Scheme : String
  Opaque : String
  User : Option Userinfo
  Host : String
  Path : String
  RawPath : String
  OmitHost : Bool
  ForceQuery : Bool
  RawQuery : String
  Fragment : String
  RawFragment : String
  deriving DecidableEq

/-- A `*url.URL`: the index of a cell of the heap. -/
abbrev Addr := Nat

/-- The `url.URL` values that pointers of the program refer to. -/
abbrev Heap := List URL

/-- Go `http.Request`, the fields the proxy reads. `URL` is the value `*req.URL`
(the program only reads it), `TLS` is `req.TLS != nil`. -/
structure Request where
  Method : String
  URL : URL
  Header : Header
  Host : String
  RemoteAddr : String
  TLS : Bool
  Body : String
  deriving DecidableEq

/-- Go `http.Response`, the fields the proxy reads. -/
structure Response where
  StatusCode : Nat
  Header : Header
  Body : String
  deriving DecidableEq

/-- Go `http.ResponseWriter`: `header` is the live map `w.Header()`; `sent` is
the status and the copy of the header map taken when the header was written;
`body` holds the chunks written. -/
structure ResponseWriter where
  header : Header
  sent : Option (Nat × Header)
  body : List String
  deriving DecidableEq

namespace ResponseWriter

/-- Go `ResponseWriter.WriteHeader`: the first call fixes status and headers, a
later call is ignored. -/
def WriteHeader (w : ResponseWriter) (code : Nat) : ResponseWriter :=
  match w.sent with
  | some _ => w
  | none => { w with sent := some (code, w.header) }

/-- Go `ResponseWriter.Write`: writes the header with status 200 when it has not
been written yet, then the data. -/
def Write (w : ResponseWriter) (data : String) : ResponseWriter :=
  let w1 := w.WriteHeader 200
  { w1 with body := w1.body ++ [data] }

/-- The header set the client receives: the copy taken by `WriteHeader`, or, when
the handler returned without writing, the live map (the server then writes it
with status 200). -/
def delivered (w : ResponseWriter) : Header :=
  match w.sent with
  | some (_, h) => h
  | none => w.header

end ResponseWriter

/-- What a handler works on: the response writer and `env`, the state of
everything else it can affect. -/
structure Ctx (σ : Type) where
  w : ResponseWriter
  env : σ

/-- Go `http.Handler`: `ServeHTTP(w, req)` as a transformer of the context. A
handler that blocks for ever ends in the state in which it blocks. -/
abbrev Handler (σ : Type) := Ctx σ → Request → Ctx σ

/-- Go `http.Error`. -/
def httpError (w : ResponseWriter) (error : String) (code : Nat) : ResponseWriter :=
  let h := w.header.Del "Content-Length"
  let h := h.Set "Content-Type" "text/plain; charset=utf-8"
  let h := h.Set "X-Content-Type-Options" "nosniff"
  let w := { w with header := h }
  let w := w.WriteHeader code
  w.Write (error ++ "\n")

/-! ## The CORS middleware (main.go 27-44) -/

/-- The header step of the middleware, lines 29-36: the four `Set` calls on
`w.Header()`. -/
def corsHeaders (h : Header) (req : Request) : Header :=
  let origin := req.Header.Get "Origin"
  let origin := if origin = "" then "*" else origin
  let h := h.Set "Access-Control-Allow-Origin" origin
  let h := h.Set "Access-Control-Allow-Methods" "GET, POST, DELETE, PATCH, PUT, OPTIONS, TRACE"
  let h := h.Set "Access-Control-Allow-Headers" "Authorization, Content-Type, Sentry-Trace"
  h.Set "Access-Control-Allow-Credentials" "true"

/-- The middleware: sets the headers, returns on OPTIONS, otherwise calls the
wrapped handler. -/
def INSECURE_CORS_MIDDLEWARE_FOR_DEVELOPMENT_ONLY {σ : Type} (h : Handler σ) : Handler σ :=
  fun c req =>
    let c := { c with w := { c.w with header := corsHeaders c.w.header req } }
    if req.Method = "OPTIONS" then
      c
    else
      h c req

/-! ## `NewProxy` (main.go 46-77) -/

/-- Go `websocket.Upgrader`, the field the proxy sets. -/
structure Upgrader where
  CheckOrigin : Request → Bool

/-- Go `httputil.ReverseProxy`, the field the proxy sets: the hook gets the
upstream response and gives back the response as it has changed it, or an error. -/
structure ReverseProxy where
  ModifyResponse : Option (Response → Except String Response)

/-- Go `httputil.NewSingleHostReverseProxy`: the proxy it builds has no
`ModifyResponse` hook. -/
def NewSingleHostReverseProxy (_target : Addr) : ReverseProxy :=
  { ModifyResponse := none }

/-- The function assigned to `rp.ModifyResponse`, lines 57-70. -/
def modifyResponse (orig : Option (Response → Except String Response)) (resp : Response) :
    Except String Response :=
  let r := match orig with
    | some f => f resp
    | none => .ok resp
  match r with
  | .error err => .error err
  | .ok resp =>
    let h := resp.Header
    let h := h.Del "Access-Control-Allow-Credentials"
    let h := h.Del "Access-Control-Allow-Headers"
    let h := h.Del "Access-Control-Allow-Methods"
    let h := h.Del "Access-Control-Allow-Origin"
    .ok { resp with Header := h }

/-- The proxy: `baseURL` points to the configured upstream URL. -/
structure Proxy where
  baseURL : Addr
  upgrader : Upgrader
  rp : ReverseProxy

/-- `NewProxy`. -/
def NewProxy (baseURL : Addr) : Proxy :=
  let up : Upgrader := { CheckOrigin := fun _ => true }
  let rp := NewSingleHostReverseProxy baseURL
  let orig := rp.ModifyResponse
  let rp := { rp with ModifyResponse := some (modifyResponse orig) }
  { baseURL := baseURL, upgrader := up, rp := rp }

/-- The four cross-origin response headers, by their canonical names. -/
def corsNames : List String :=
  ["Access-Control-Allow-Origin", "Access-Control-Allow-Methods",
   "Access-Control-Allow-Headers", "Access-Control-Allow-Credentials"]

/-! ## The environment of one exchange -/

/-- Raw bytes, Go `[]byte`. -/
abbrev Bytes := List UInt8

/-- The UTF-8 bytes of a string, Go `[]byte(s)`. -/
def utf8 (s : String) : Bytes := s.toUTF8.data.toList

/-- The Go `error` values the websocket connection calls return: a
`*websocket.CloseError` with its code and text, or any other error, known by its
`Error()` text. -/
inductive WsError where
  | close (Code : Int) (Text : String)
  | other (msg : String)
  deriving DecidableEq

/-- The result of `ReadMessage`: a message with its type tag, or an error. -/
inductive ReadResult where
  | message (msgType : Int) (msg : Bytes)
  | failure (err : WsError)
  deriving DecidableEq

/-- The result of `websocket.DefaultDialer.Dial`: an error without a response,
an error with the backend's response (the handshake was refused), or a
connection with the handshake response. -/
inductive DialResult where
  | refused
  | rejected (resp : Response)
  | connected (resp : Response)
  deriving DecidableEq

/-- The result of `Upgrader.Upgrade`: a connection, or an error.  When the
library rejects the request it answers the client itself, with `http.Error`,
before it returns the error: `reply` is that status and its status text, and
`none` stands for an error that comes after the connection was taken over. -/
inductive UpgradeResult where
  | upgraded
  | failed (reply : Option (Nat × String))
  deriving DecidableEq

/-- What the peers and the scheduler do during one exchange.
`forward req` is the upstream's answer to a forwarded request: the 1xx
responses it sends first (status and headers), then the final response, or
`none` when the round trip fails.
`clientWrite n` is the outcome of the `n`-th `WriteMessage` on the client
connection (`none` is success), `backendReads` what successive `ReadMessage`
calls on the backend connection return (after the last one the call blocks);
`pick` is the choice `select` makes when both channels hold a value. -/
structure Network where
  forward : Request → List (Nat × Header) × Option Response
  dial : URL → Header → DialResult
  upgrade : Upgrader → Request → Header → UpgradeResult
  copyErr : Option String
  backendReads : List ReadResult
  clientReads : List ReadResult
  clientWrite : Nat → Option WsError
  backendWrite : Nat → Option WsError
  pick : Bool

/-- Which handler of the proxy has been entered (a trace kept by the model). -/
inductive Call where
  | proxyWebsocket
  | reverseProxy
  deriving DecidableEq

/-- What happens to the two websocket connections. -/
inductive ConnEvent where
  | dial (url : URL) (header : Header)
  | openBackend
  | upgrade (header : Header)
  | openClient
  | closeClient
  | closeBackend
  deriving DecidableEq

/-- The `log.Printf` calls of the program, by call site. -/
inductive LogLine where
  | proxying (path : String)
  | dialFailed
  | copyFailed (err : String)
  | upgradeFailed
  | relayFailed (message : String) (err : WsError)
  deriving DecidableEq

/-- The state outside the response writer: the URL cells, the traces, and how
the handler ended when it did not return (`blocked`: it waits for ever;
`panicked`: it dereferenced a nil pointer). -/
structure Sys where
  heap : Heap
  calls : List Call
  conns : List ConnEvent
  logs : List LogLine
  blocked : Bool
  panicked : Bool
  deriving DecidableEq

/-- One `log.Printf`. -/
def logPrintf (c : Ctx Sys) (l : LogLine) : Ctx Sys :=
  { c with env := { c.env with logs := c.env.logs ++ [l] } }

/-- One connection event. -/
def connEvent (c : Ctx Sys) (e : ConnEvent) : Ctx Sys :=
  { c with env := { c.env with conns := c.env.conns ++ [e] } }

/-- The handler returns: the deferred calls run, the last deferred first
(`defers` holds the most recent at its head). -/
def returnWith (c : Ctx Sys) (defers : List ConnEvent) : Ctx Sys :=
  { c with env := { c.env with conns := c.env.conns ++ defers } }

/-! ## Copying a response (main.go 253-267) -/

/-- `copyHeader`: every value of every key of `src` is added to `dst`. -/
def copyHeader (dst src : Header) : Header :=
  src.foldl (fun dst kv => kv.2.foldl (fun dst v => dst.Add kv.1 v) dst) dst

/-- `copyResponse`: headers, status, then the body; the error is that of
`io.Copy`, which the environment decides. -/
def copyResponse (copyErr : Option String) (rw : ResponseWriter) (resp : Response) :
    ResponseWriter × Option String :=
  let rw := { rw with header := copyHeader rw.header resp.Header }
  let rw := rw.WriteHeader resp.StatusCode
  match copyErr with
  | some err => (rw, some err)
  | none => (if resp.Body = "" then rw else rw.Write resp.Body, none)

/-- The library's answer to one 1xx response of the upstream
(`Got1xxResponse`): its headers are added to the writer's, the informational
response is written, and the writer's header map is cleared.  The informational
response is not part of the final response and is not recorded. -/
def got1xxResponse (w : ResponseWriter) (_info : Nat × Header) : ResponseWriter :=
  { w with header := [] }

/-- Go `httputil.ReverseProxy.ServeHTTP`, the response path: every 1xx response
of the upstream is passed on and clears the writer's header map; an upstream
that cannot be reached or a failing hook gives 502; otherwise the hook runs, the
headers are added to the writer's, and status and body follow.  The library's
rewriting of the outbound request, its removal of hop-by-hop headers, its
trailers and its handling of a 101 response are left out. -/
def ReverseProxy.ServeHTTP (rp : ReverseProxy) (net : Network) : Handler Sys :=
  fun c req =>
    let c := { c with env := { c.env with calls := c.env.calls ++ [Call.reverseProxy] } }
    let c := { c with w := (net.forward req).1.foldl got1xxResponse c.w }
    match (net.forward req).2 with
    | none => { c with w := c.w.WriteHeader 502 }
    | some res =>
      let r := match rp.ModifyResponse with
        | some f => f res
        | none => .ok res
      match r with
      | .error _ => { c with w := c.w.WriteHeader 502 }
      | .ok res =>
        let w := { c.w with header := copyHeader c.w.header res.Header }
        let w := w.WriteHeader res.StatusCode
        { c with w := if res.Body = "" then w else w.Write res.Body }

/-! ## The websocket tunnel (main.go 119-251) -/

/-- `rewrite`, lines 245-251: `u2 := *p.baseURL` copies the cell, three fields
are taken from `u`, and `&u2` is the address of a new cell.  `none` is the
dereference of a nil `baseURL`. -/
def Proxy.rewrite (p : Proxy) (heap : Heap) (u : URL) : Option (Addr × Heap) :=
  match heap.get? p.baseURL with
  | none => none
  | some base =>
    let u2 := base
    let u2 := { u2 with Fragment := u.Fragment }
    let u2 := { u2 with Path := u.Path }
    let u2 := { u2 with RawQuery := u.RawQuery }
    some (heap.length, heap ++ [u2])

/-- Lines 120-127: the backend URL, with the scheme switch writing through the
pointer `rewrite` returned. -/
def backendURL (p : Proxy) (heap : Heap) (req : Request) : Option (Addr × Heap) :=
  match p.rewrite heap req.URL with
  | none => none
  | some (a, heap) =>
    match heap.get? a with
    | none => none
    | some cell =>
      if cell.Scheme = "http" then
        some (a, heap.set a { cell with Scheme := "ws" })
      else if cell.Scheme = "https" then
        some (a, heap.set a { cell with Scheme := "wss" })
      else
        some (a, heap)

/-- Lines 131-162: the headers passed to the dialer. -/
def requestHeader (req : Request) : Header :=
  let requestHeader : Header := []
  let requestHeader :=
    ((req.Header.index (CanonicalMIMEHeaderKey "Sec-WebSocket-Protocol")).getD []).foldl
      (fun h prot => h.Add "Sec-WebSocket-Protocol" prot) requestHeader
  let requestHeader :=
    ((req.Header.index (CanonicalMIMEHeaderKey "Cookie")).getD []).foldl
      (fun h cookie => h.Add "Cookie" cookie) requestHeader
  let requestHeader :=
    if req.Host ≠ "" then requestHeader.Set "Host" req.Host else requestHeader
  let requestHeader :=
    match SplitHostPort req.RemoteAddr with
    | .ok (clientIP, _) =>
      let clientIP :=
        match req.Header.index "X-Forwarded-For" with
        | some prior => stringsJoin prior ", " ++ ", " ++ clientIP
        | none => clientIP
      requestHeader.Set "X-Forwarded-For" clientIP
    | .error _ => requestHeader
  let requestHeader := requestHeader.Set "X-Forwarded-Proto" "http"
  if req.TLS then requestHeader.Set "X-Forwarded-Proto" "https" else requestHeader

/-- Lines 188-194: the headers passed to the upgrader. -/
def upgradeHeader (resp : Response) : Header :=
  let upgradeHeader : Header := []
  let hdr := resp.Header.Get "Sec-Websocket-Protocol"
  let upgradeHeader :=
    if hdr ≠ "" then upgradeHeader.Set "Sec-Websocket-Protocol" hdr else upgradeHeader
  let hdr := resp.Header.Get "Set-Cookie"
  if hdr ≠ "" then upgradeHeader.Set "Set-Cookie" hdr else upgradeHeader

/-- Go `websocket.CloseNormalClosure`. -/
def CloseNormalClosure : Int := 1000

/-- Go `websocket.CloseNoStatusReceived`. -/
def CloseNoStatusReceived : Int := 1005

/-- Go `websocket.CloseMessage`, the type tag of a close message. -/
def CloseMessage : Int := 8

/-- Go `websocket.FormatCloseMessage`: empty for `CloseNoStatusReceived`,
otherwise the code as a big-endian `uint16` followed by the text. -/
def FormatCloseMessage (closeCode : Int) (text : String) : Bytes :=
  if closeCode = CloseNoStatusReceived then
    []
  else
    let c := (closeCode % 65536).toNat
    [UInt8.ofNat (c / 256), UInt8.ofNat (c % 256)] ++ utf8 text

/-- Go `(*websocket.CloseError).Error`. -/
def closeErrorText (code : Int) (text : String) : String :=
  let s := "websocket: close " ++ toString code
  let s := s ++
    (if code = 1000 then " (normal)"
     else if code = 1001 then " (going away)"
     else if code = 1002 then " (protocol error)"
     else if code = 1003 then " (unsupported data)"
     else if code = 1005 then " (no status)"
     else if code = 1006 then " (abnormal closure)"
     else if code = 1007 then " (invalid payload data)"
     else if code = 1008 then " (policy violation)"
     else if code = 1009 then " (message too big)"
     else if code = 1010 then " (mandatory extension missing)"
     else if code = 1011 then " (internal server error)"
     else if code = 1015 then " (TLS handshake error)"
     else "")
  if text ≠ "" then s ++ ": " ++ text else s

/-- The text of an error, `fmt.Sprintf("%v", err)`. -/
def WsError.Error : WsError → String
  | .close code text => closeErrorText code text
  | .other msg => msg

/-- Lines 211-216: the close payload built for a read error. -/
def closePayload (err : WsError) : Bytes :=
  let m := FormatCloseMessage CloseNormalClosure err.Error
  match err with
  | .close code text =>
    if code ≠ CloseNoStatusReceived then FormatCloseMessage code text else m
  | .other _ => m

/-- What one relay loop has done: its `WriteMessage` calls on `dst` in order,
the values it has sent on `errc`, and whether it has left the loop (`false`: it
is blocked in `ReadMessage`). -/
structure Relay where
  writes : List (Int × Bytes)
  errc : List WsError
  stopped : Bool
  deriving DecidableEq

/-- `replicateWebsocketConn`, lines 207-227. `dst n` is the outcome of the
`n`-th write on `dst`, `src` what the reads on `src` return; `n` counts the
writes made so far. -/
def replicateWebsocketConn (dst : Nat → Option WsError) : List ReadResult → Nat → Relay
  | [], _ => { writes := [], errc := [], stopped := false }
  | .failure err :: _, _ =>
    { writes := [(CloseMessage, closePayload err)], errc := [err], stopped := true }
  | .message msgType msg :: src, n =>
    match dst n with
    | some err => { writes := [(msgType, msg)], errc := [err], stopped := true }
    | none =>
      let r := replicateWebsocketConn dst src (n + 1)
      { r with writes := (msgType, msg) :: r.writes }

/-- The `select` of lines 233-238 over the two channels: the message of the
case taken and the error received; `none` when neither channel ever holds a
value. -/
def selectFirst (pick : Bool) (errClient errBackend : List WsError) : Option (String × WsError) :=
  match errClient.head?, errBackend.head? with
  | none, none => none
  | some err, none => some ("wasmproxy: error when copying from backend to client: %v", err)
  | none, some err => some ("wasmproxy: error when copying from client to backend: %v", err)
  | some e1, some e2 =>
    if pick then some ("wasmproxy: error when copying from backend to client: %v", e1)
    else some ("wasmproxy: error when copying from client to backend: %v", e2)

/-- `proxyWebsocket`, lines 119-242. -/
def Proxy.proxyWebsocket (p : Proxy) (net : Network) : Handler Sys :=
  fun c req =>
    let c := { c with env := { c.env with calls := c.env.calls ++ [Call.proxyWebsocket] } }
    match backendURL p c.env.heap req with
    | none => { c with env := { c.env with panicked := true } }
    | some (backend, heap) =>
    let c := { c with env := { c.env with heap := heap } }
    match heap.get? backend with
    | none => { c with env := { c.env with panicked := true } }
    | some url =>
    let requestHeader := requestHeader req
    let defers : List ConnEvent := []
    let c := connEvent c (.dial url requestHeader)
    match net.dial url requestHeader with
    | .refused =>
      let c := logPrintf c .dialFailed
      let c := { c with w := httpError c.w "Service Unavailable" 503 }
      returnWith c defers
    | .rejected resp =>
      let c := logPrintf c .dialFailed
      let (w, err) := copyResponse net.copyErr c.w resp
      let c := { c with w := w }
      let c := match err with
        | some err => logPrintf c (.copyFailed err)
        | none => c
      returnWith c defers
    | .connected resp =>
      let c := connEvent c .openBackend
      let defers := ConnEvent.closeBackend :: defers
      let upgradeHeader := upgradeHeader resp
      let c := connEvent c (.upgrade upgradeHeader)
      match net.upgrade p.upgrader req upgradeHeader with
      | .failed reply =>
        let c := match reply with
          | some (status, text) =>
            let w := { c.w with header := c.w.header.Set "Sec-Websocket-Version" "13" }
            { c with w := httpError w text status }
          | none => c
        let c := logPrintf c .upgradeFailed
        returnWith c defers
      | .upgraded =>
        let c := connEvent c .openClient
        let defers := ConnEvent.closeClient :: defers
        let errClient := (replicateWebsocketConn net.clientWrite net.backendReads 0).errc
        let errBackend := (replicateWebsocketConn net.backendWrite net.clientReads 0).errc
        match selectFirst net.pick errClient errBackend with
        | none => { c with env := { c.env with blocked := true } }
        | some (message, err) =>
          let c := match err with
            | .close _ _ => c
            | _ => logPrintf c (.relayFailed message err)
          returnWith c defers

/-- `Proxy.ServeHTTP`, lines 85-93. `table` is the Unicode lower-case table. -/
def Proxy.ServeHTTP (table : Char → Char) (net : Network) (p : Proxy) : Handler Sys :=
  fun c req =>
    let c := logPrintf c (.proxying req.URL.Path)
    if stringsContains (stringsToLower table (req.Header.Get "Upgrade")) "websocket" then
      p.proxyWebsocket net c req
    else
      p.rp.ServeHTTP net c req

/-! ## Vocabulary of the statements -/

/-- A handler with a call counter beside its state: it runs `h` on the state
without the counter and adds one to the counter. -/
def counted {σ : Type} (h : Handler σ) : Handler (σ × Nat) :=
  fun c req =>
    let r := h ⟨c.w, c.env.1⟩ req
    ⟨r.w, (r.env, c.env.2 + 1)⟩

/-- Letter case ignored, for one rune: `l` is what `c` becomes when its case is
dropped.  An upper-case ASCII letter (`A` to `Z`, 65 to 90) becomes the letter 32
above it, any other ASCII character stays, and a rune outside ASCII becomes
what the Unicode tables say. -/
def sameLetter (table : Char → Char) (c l : Char) : Prop :=
  (65 ≤ c.toNat ∧ c.toNat ≤ 90 ∧ l = Char.ofNat (c.toNat + 32)) ∨
  (c.toNat < 128 ∧ ¬ (65 ≤ c.toNat ∧ c.toNat ≤ 90) ∧ l = c) ∨
  (128 ≤ c.toNat ∧ l = table c)

/-- The text `v`, compared case-insensitively, contains the lower-case text
`sub`: a contiguous run of `v` becomes `sub`, rune by rune, once the letter case
of the run is dropped. -/
def containsIgnoringCase (table : Char → Char) (v sub : String) : Prop :=
  ∃ pre mid post : List Char,
    v.data = pre ++ mid ++ post ∧ List.Forall₂ (sameLetter table) mid sub.data

/-- The first value of the request's Upgrade header, the empty string when the
header has no value. -/
def firstUpgradeValue (req : Request) : String :=
  match req.Header.index "Upgrade" with
  | some (v :: _) => v
  | _ => ""

/-- The detection rule as claim C5 words it: the request's Upgrade header, any
of its values, contains `websocket` once letter case is ignored. -/
def upgradeHeaderContains (table : Char → Char) (req : Request) : Prop :=
  ∃ v ∈ (req.Header.index "Upgrade").getD [], containsIgnoringCase table v "websocket"

/-- The detection rule of the code: the first value of the Upgrade header
contains `websocket` once letter case is ignored. -/
def upgradeCandidate (table : Char → Char) (req : Request) : Prop :=
  containsIgnoringCase table (firstUpgradeValue req) "websocket"

/-- The remote address `addr` has the form host:port: it is `host:port` with no
colon or bracket in `host`, or `[host]:port` with no bracket in `host` (an IPv6
literal); `port` holds no colon or bracket. -/
def remoteAddrForm (addr host port : String) : Prop :=
  (':' ∉ port.data ∧ '[' ∉ port.data ∧ ']' ∉ port.data) ∧
  ((addr = host ++ ":" ++ port ∧ ':' ∉ host.data ∧ '[' ∉ host.data ∧ ']' ∉ host.data) ∨
   (addr = "[" ++ host ++ "]:" ++ port ∧ '[' ∉ host.data ∧ ']' ∉ host.data))

/-- The X-Forwarded-For rule as claim C6 words it, for a request whose remote
address has the host `host`: one value, the prior values joined with comma and
space and followed by comma, space and `host`, or `host` alone when there are no
prior values. -/
def forwardedForAsClaimed (req : Request) (host : String) : Prop :=
  (requestHeader req).index "X-Forwarded-For" =
    some [if (req.Header.index "X-Forwarded-For").getD [] = [] then host
          else ", ".intercalate ((req.Header.index "X-Forwarded-For").getD []) ++ ", " ++ host]

/-- A writer on which nothing has been set or written. -/
def freshWriter : ResponseWriter := { header := [], sent := none, body := [] }

/-- The upstream of `main`: `https://icanhazdadjoke.com`. -/
def jokesURL : URL :=
  { Scheme := "https", Opaque := "", User := none, Host := "icanhazdadjoke.com", Path := "",
    RawPath := "", OmitHost := false, ForceQuery := false, RawQuery := "", Fragment := "",
    RawFragment := "" }

/-- The state at the start of an exchange: the heap holds the base URL at
address 0. -/
def startSys : Sys :=
  { heap := [jokesURL], calls := [], conns := [], logs := [], blocked := false,
    panicked := false }

/-- A network in which nothing answers. -/
def deadNetwork : Network :=
  { forward := fun _ => ([], none), dial := fun _ _ => .refused,
    upgrade := fun _ _ _ => .failed (some (400, "Bad Request")), copyErr := none,
    backendReads := [], clientReads := [], clientWrite := fun _ => none,
    backendWrite := fun _ => none, pick := true }

/-- A request for `path` with the given method and headers, from `2.2.2.2:5555`. -/
def requestOf (method path : String) (header : Header) : Request :=
  { Method := method,
    URL := { jokesURL with Scheme := "", Host := "", Path := path },
    Header := header, Host := "localhost:8080", RemoteAddr := "2.2.2.2:5555", TLS := false,
    Body := "" }

/-- The second half of claim C8 at one response, as the claim words it: each of
the two names the backend's handshake response carries is passed on with the
backend's values. -/
def passesBackendValues (resp : Response) : Prop :=
  ∀ k ∈ ["Sec-Websocket-Protocol", "Set-Cookie"], ∀ vs : List String,
    resp.Header.index k = some vs → (upgradeHeader resp).index k = some vs

/-- A handshake response that sets two cookies. -/
def twoCookies : Response :=
  { StatusCode := 101, Header := [("Set-Cookie", ["a=1", "b=2"])], Body := "" }

/-- How the receiver of a close message reads its payload: two bytes of status
code, big-endian, then the reason. -/
def decodeClose : Bytes → Option (Int × Bytes)
  | hi :: lo :: reason => some ((hi.toNat * 256 + lo.toNat : Nat), reason)
  | _ => none

/-- The first half of claim C9 at one close error, as the claim words it: the
payload written carries that error's code and reason. -/
def reusesCodeAndReason (code : Int) (text : String) : Prop :=
  decodeClose (closePayload (.close code text)) = some (code, utf8 text)

/-- Whether a trace leaves a connection open: an open event with no later
close event of the same connection. -/
def leaks : List ConnEvent → Bool
  | [] => false
  | .openBackend :: t => !decide (ConnEvent.closeBackend ∈ t) || leaks t
  | .openClient :: t => !decide (ConnEvent.closeClient ∈ t) || leaks t
  | _ :: t => leaks t

/-- The open and close events of a trace, in order. -/
def lifecycle (t : List ConnEvent) : List ConnEvent :=
  t.filter (fun e => decide (e = .openBackend ∨ e = .openClient ∨ e = .closeClient ∨
    e = .closeBackend))

/-- A network in which the backend accepts the handshake with `resp`, the client
upgrade succeeds, and the backend then closes with code 1001 while the client
stays silent. -/
def acceptingNetwork (resp : Response) : Network :=
  { deadNetwork with
    dial := fun _ _ => .connected resp,
    upgrade := fun _ _ _ => .upgraded,
    backendReads := [.failure (.close 1001 "bye")] }

/-- A backend that refuses the websocket handshake with status 401 and sends a
cross-origin header of its own. -/
def rejectingNetwork : Network :=
  { deadNetwork with
    dial := fun _ _ => .rejected
      { StatusCode := 401,
        Header := [("Access-Control-Allow-Origin", ["*"]), ("Www-Authenticate", ["Basic"])],
        Body := "denied" } }

/-- An upgrade request from a page of `https://example.com`. -/
def upgradeRequest : Request :=
  requestOf "GET" "/ws" [("Upgrade", ["websocket"]), ("Origin", ["https://example.com"])]

/-! ## Facts about header maps -/

namespace Header

theorem index_nil (k : String) : index [] k = none := rfl

theorem index_cons (e : String × List String) (h : Header) (k : String) :
    index (e :: h) k = if e.1 = k then some e.2 else index h k := by
  unfold index
  by_cases hk : e.1 = k
  · simp [List.find?_cons, hk]
  · have hb : (e.1 == k) = false := by simpa using hk
    simp only [List.find?_cons, hb, if_neg hk]

theorem index_delete_self (h : Header) (k : String) : (h.delete k).index k = none := by
  induction h with
  | nil => rfl
  | cons e h ih =>
    by_cases hk : e.1 = k
    · simpa [delete, hk] using ih
    · have : delete (e :: h) k = e :: delete h k := by simp [delete, hk]
      rw [this, index_cons, if_neg hk, ih]

theorem index_delete_ne (h : Header) {k k1 : String} (hne : k1 ≠ k) :
    (h.delete k).index k1 = h.index k1 := by
  induction h with
  | nil => rfl
  | cons e h ih =>
    by_cases hk : e.1 = k
    · have hd : delete (e :: h) k = delete h k := by simp [delete, hk]
      have hk1 : e.1 ≠ k1 := fun h1 => hne (h1.symm.trans hk)
      rw [hd, ih, index_cons, if_neg hk1]
    · have hd : delete (e :: h) k = e :: delete h k := by simp [delete, hk]
      rw [hd, index_cons, index_cons, ih]

theorem index_map_store (h : Header) (k k1 : String) (vs : List String) :
    index (h.map (fun e => if e.1 == k then (k, vs) else e)) k1 =
      if k1 = k then (index h k).map (fun _ => vs) else index h k1 := by
  induction h with
  | nil => simp [index_nil]
  | cons e h ih =>
    rw [List.map_cons, index_cons, ih]
    by_cases hk : e.1 = k
    · by_cases hk1 : k1 = k
      · simp [hk, hk1, index_cons]
      · have : k ≠ k1 := fun h1 => hk1 h1.symm
        have h2 : e.1 ≠ k1 := fun h1 => hk1 (h1.symm.trans hk)
        simp [hk, hk1, this, index_cons]
    · by_cases hk1 : k1 = k
      · subst hk1
        simp [hk, index_cons]
      · simp [hk, hk1, index_cons]

theorem index_append_single (h : Header) (k k1 : String) (vs : List String) :
    index (h ++ [(k, vs)]) k1 =
      match index h k1 with
      | some v => some v
      | none => if k = k1 then some vs else none := by
  induction h with
  | nil => simp [index_cons, index_nil]
  | cons e h ih =>
    rw [List.cons_append, index_cons, index_cons, ih]
    by_cases hk : e.1 = k1 <;> simp [hk]

theorem index_store_self (h : Header) (k : String) (vs : List String) :
    (h.store k vs).index k = some vs := by
  unfold store
  cases hi : h.index k with
  | none => simp [index_append_single, hi]
  | some v =>
    show index (h.map (fun e => if e.1 == k then (k, vs) else e)) k = some vs
    rw [index_map_store, if_pos rfl, hi]
    rfl

theorem index_store_ne (h : Header) {k k1 : String} (hne : k1 ≠ k) (vs : List String) :
    (h.store k vs).index k1 = h.index k1 := by
  unfold store
  cases hi : h.index k with
  | none =>
    have : k ≠ k1 := fun h1 => hne h1.symm
    simp only [index_append_single]
    cases h.index k1 <;> simp [this]
  | some v =>
    show index (h.map (fun e => if e.1 == k then (k, vs) else e)) k1 = h.index k1
    rw [index_map_store, if_neg hne]

end Header

/-! ## The canonical form of the header names the program uses -/

theorem canon_allowOrigin :
    CanonicalMIMEHeaderKey "Access-Control-Allow-Origin" = "Access-Control-Allow-Origin" := by
  decide

theorem canon_allowMethods :
    CanonicalMIMEHeaderKey "Access-Control-Allow-Methods" = "Access-Control-Allow-Methods" := by
  decide

theorem canon_allowHeaders :
    CanonicalMIMEHeaderKey "Access-Control-Allow-Headers" = "Access-Control-Allow-Headers" := by
  decide

theorem canon_allowCredentials :
    CanonicalMIMEHeaderKey "Access-Control-Allow-Credentials"
      = "Access-Control-Allow-Credentials" := by
  decide

theorem canon_forwardedFor : CanonicalMIMEHeaderKey "X-Forwarded-For" = "X-Forwarded-For" := by
  decide

theorem canon_forwardedProto :
    CanonicalMIMEHeaderKey "X-Forwarded-Proto" = "X-Forwarded-Proto" := by
  decide

theorem canon_protocol :
    CanonicalMIMEHeaderKey "Sec-Websocket-Protocol" = "Sec-Websocket-Protocol" := by
  decide

theorem canon_setCookie : CanonicalMIMEHeaderKey "Set-Cookie" = "Set-Cookie" := by
  decide

theorem mem_corsNames (k : String) :
    k ∈ corsNames ↔ k = "Access-Control-Allow-Origin" ∨ k = "Access-Control-Allow-Methods" ∨
      k = "Access-Control-Allow-Headers" ∨ k = "Access-Control-Allow-Credentials" := by
  simp [corsNames]

/-! ## The response filter -/

/-- The four `Del` calls of the filter remove exactly the entries stored under one
of the four cross-origin names and keep the others in place. -/
theorem del_cors_eq_filter (h : Header) :
    (((h.Del "Access-Control-Allow-Credentials").Del "Access-Control-Allow-Headers").Del
        "Access-Control-Allow-Methods").Del "Access-Control-Allow-Origin"
      = h.filter (fun e => decide (e.1 ∉ corsNames)) := by
  simp only [Header.Del, Header.delete, canon_allowOrigin, canon_allowMethods,
    canon_allowHeaders, canon_allowCredentials, List.filter_filter]
  apply List.filter_congr
  intro e _
  by_cases h1 : e.1 = "Access-Control-Allow-Origin" <;>
  by_cases h2 : e.1 = "Access-Control-Allow-Methods" <;>
  by_cases h3 : e.1 = "Access-Control-Allow-Headers" <;>
  by_cases h4 : e.1 = "Access-Control-Allow-Credentials" <;>
  simp [h1, h2, h3, h4, mem_corsNames]

theorem index_filter_notMem (h : Header) (names : List String) (k : String) :
    Header.index (h.filter (fun e => decide (e.1 ∉ names))) k =
      if k ∈ names then none else Header.index h k := by
  induction h with
  | nil => simp [Header.index_nil]
  | cons e h ih =>
    by_cases he : e.1 ∈ names
    · have hf : List.filter (fun e => decide (e.1 ∉ names)) (e :: h)
          = List.filter (fun e => decide (e.1 ∉ names)) h := by simp [he]
      rw [hf, ih, Header.index_cons]
      by_cases hk : k ∈ names
      · simp [hk]
      · have : e.1 ≠ k := fun h1 => hk (h1 ▸ he)
        simp [hk, this]
    · have hf : List.filter (fun e => decide (e.1 ∉ names)) (e :: h)
          = e :: List.filter (fun e => decide (e.1 ∉ names)) h := by simp [he]
      rw [hf, Header.index_cons, ih, Header.index_cons]
      by_cases hk : e.1 = k
      · have : k ∉ names := hk ▸ he
        simp [hk, this]
      · simp [hk]

/-- What the hook installed by `NewProxy` does to an upstream response. -/
theorem newProxy_hook (baseURL : Addr) (resp : Response) :
    ∃ f out, (NewProxy baseURL).rp.ModifyResponse = some f ∧ f resp = .ok out ∧
      out.StatusCode = resp.StatusCode ∧ out.Body = resp.Body ∧
      (∀ k ∈ corsNames, out.Header.index k = none) ∧
      (∀ k, CanonicalMIMEHeaderKey k ∈ corsNames → out.Header.Get k = "" ∧
        out.Header.index (CanonicalMIMEHeaderKey k) = none) ∧
      (∀ k, k ∉ corsNames → out.Header.index k = resp.Header.index k) ∧
      out.Header = resp.Header.filter (fun e => decide (e.1 ∉ corsNames)) ∧
      ((∀ k ∈ resp.Header.keys, CanonicalMIMEHeaderKey k = k) →
        ∀ k ∈ out.Header.keys, CanonicalMIMEHeaderKey k ∉ corsNames) := by
  refine ⟨modifyResponse none,
    ⟨resp.StatusCode, resp.Header.filter (fun e => decide (e.1 ∉ corsNames)), resp.Body⟩,
    rfl, ?_, rfl, rfl, ?_, ?_, ?_, rfl, ?_⟩
  · simp only [modifyResponse, del_cors_eq_filter]
  · intro k hk
    show Header.index (resp.Header.filter (fun e => decide (e.1 ∉ corsNames))) k = none
    rw [index_filter_notMem, if_pos hk]
  · intro k hk
    have hi : Header.index (resp.Header.filter (fun e => decide (e.1 ∉ corsNames)))
        (CanonicalMIMEHeaderKey k) = none := by
      rw [index_filter_notMem, if_pos hk]
    exact ⟨by simp only [Header.Get, hi], hi⟩
  · intro k hk
    show Header.index (resp.Header.filter (fun e => decide (e.1 ∉ corsNames))) k = _
    rw [index_filter_notMem, if_neg hk]
  · intro hcanon k hk
    simp only [Header.keys, List.mem_map, List.mem_filter] at hk
    obtain ⟨e, ⟨hmem, hnot⟩, rfl⟩ := hk
    have hc : CanonicalMIMEHeaderKey e.1 = e.1 :=
      hcanon e.1 (by simp only [Header.keys, List.mem_map]; exact ⟨e, hmem, rfl⟩)
    rw [hc]
    simpa using hnot

/-- C2: for every upstream response, the filter that `NewProxy` installs as
`ModifyResponse` returns without error; in the response it leaves, none of the
four cross-origin names holds a value (under any spelling that canonicalises to
it), every other header name holds the value list it held before, the remaining
entries keep their order, and status and body are untouched.  When the upstream
names are in canonical form, as an HTTP client stores them, no remaining name
canonicalises to a cross-origin name either. -/
theorem modifyResponse_strips_cors (baseURL : Addr) (resp : Response) :
    ∃ f out, (NewProxy baseURL).rp.ModifyResponse = some f ∧ f resp = .ok out ∧
      out.StatusCode = resp.StatusCode ∧ out.Body = resp.Body ∧
      (∀ k ∈ corsNames, out.Header.index k = none) ∧
      (∀ k, CanonicalMIMEHeaderKey k ∈ corsNames → out.Header.Get k = "" ∧
        out.Header.index (CanonicalMIMEHeaderKey k) = none) ∧
      (∀ k, k ∉ corsNames → out.Header.index k = resp.Header.index k) ∧
      out.Header = resp.Header.filter (fun e => decide (e.1 ∉ corsNames)) ∧
      ((∀ k ∈ resp.Header.keys, CanonicalMIMEHeaderKey k = k) →
        ∀ k ∈ out.Header.keys, CanonicalMIMEHeaderKey k ∉ corsNames) :=
  newProxy_hook baseURL resp

/-- Witness of C2: an upstream response with a cross-origin header of its own. -/
theorem modifyResponse_strips_cors_witness :
    ∃ f out, (NewProxy 0).rp.ModifyResponse = some f ∧
      f ⟨200, [("Access-Control-Allow-Origin", ["*"]), ("Content-Type", ["application/json"])],
          "joke"⟩ = .ok out ∧
      out.Header = [("Content-Type", ["application/json"])] ∧
      ∀ k ∈ out.Header.keys, CanonicalMIMEHeaderKey k ∉ corsNames := by
  obtain ⟨f, out, hf, hout, -, -, -, -, -, hh, hc⟩ := modifyResponse_strips_cors 0
    ⟨200, [("Access-Control-Allow-Origin", ["*"]), ("Content-Type", ["application/json"])],
      "joke"⟩
  refine ⟨f, out, hf, hout, ?_, hc (by decide)⟩
  rw [hh]
  decide

/-! ## The CORS middleware -/

/-- The value of each header name after the header step of the middleware. -/
theorem corsHeaders_index (h : Header) (req : Request) :
    (corsHeaders h req).index "Access-Control-Allow-Origin"
      = some [if req.Header.Get "Origin" = "" then "*" else req.Header.Get "Origin"] ∧
    (corsHeaders h req).index "Access-Control-Allow-Methods"
      = some ["GET, POST, DELETE, PATCH, PUT, OPTIONS, TRACE"] ∧
    (corsHeaders h req).index "Access-Control-Allow-Headers"
      = some ["Authorization, Content-Type, Sentry-Trace"] ∧
    (corsHeaders h req).index "Access-Control-Allow-Credentials" = some ["true"] ∧
    (∀ k, k ∉ corsNames → (corsHeaders h req).index k = h.index k) ∧
    (∀ (σ : Type) (next : Handler σ) (c : Ctx σ),
      INSECURE_CORS_MIDDLEWARE_FOR_DEVELOPMENT_ONLY next c req =
        if req.Method = "OPTIONS" then
          ⟨{ c.w with header := corsHeaders c.w.header req }, c.env⟩
        else next ⟨{ c.w with header := corsHeaders c.w.header req }, c.env⟩ req) := by
  have e1 : "Access-Control-Allow-Origin" ≠ "Access-Control-Allow-Methods" := by decide
  have e2 : "Access-Control-Allow-Origin" ≠ "Access-Control-Allow-Headers" := by decide
  have e3 : "Access-Control-Allow-Origin" ≠ "Access-Control-Allow-Credentials" := by decide
  have e4 : "Access-Control-Allow-Methods" ≠ "Access-Control-Allow-Headers" := by decide
  have e5 : "Access-Control-Allow-Methods" ≠ "Access-Control-Allow-Credentials" := by decide
  have e6 : "Access-Control-Allow-Headers" ≠ "Access-Control-Allow-Credentials" := by decide
  simp only [corsHeaders, Header.Set, canon_allowOrigin, canon_allowMethods,
    canon_allowHeaders, canon_allowCredentials]
  refine ⟨?_, ?_, ?_, ?_, ?_, ?_⟩
  · rw [Header.index_store_ne _ e3, Header.index_store_ne _ e2, Header.index_store_ne _ e1,
      Header.index_store_self]
  · rw [Header.index_store_ne _ e5, Header.index_store_ne _ e4, Header.index_store_self]
  · rw [Header.index_store_ne _ e6, Header.index_store_self]
  · rw [Header.index_store_self]
  · intro k hk
    rw [mem_corsNames] at hk
    push_neg at hk
    rw [Header.index_store_ne _ hk.2.2.2, Header.index_store_ne _ hk.2.2.1,
      Header.index_store_ne _ hk.2.1, Header.index_store_ne _ hk.1]
  · intro σ next c
    rfl

/-- C3: for every request and every prior content of the response header map,
after the header step of the middleware the map holds, each as a single value
that replaces whatever was there: the request's Origin value, or `*` when that
is empty or missing, under Access-Control-Allow-Origin; the fixed method list;
the fixed header list; and `true` for the credentials.  No other name changes,
and this map is the one the middleware returns with (OPTIONS) or hands to the
wrapped handler. -/
theorem corsHeaders_sets_four (h : Header) (req : Request) :
    (corsHeaders h req).index "Access-Control-Allow-Origin"
      = some [if req.Header.Get "Origin" = "" then "*" else req.Header.Get "Origin"] ∧
    (corsHeaders h req).index "Access-Control-Allow-Methods"
      = some ["GET, POST, DELETE, PATCH, PUT, OPTIONS, TRACE"] ∧
    (corsHeaders h req).index "Access-Control-Allow-Headers"
      = some ["Authorization, Content-Type, Sentry-Trace"] ∧
    (corsHeaders h req).index "Access-Control-Allow-Credentials" = some ["true"] ∧
    (∀ k, k ∉ corsNames → (corsHeaders h req).index k = h.index k) ∧
    (∀ (σ : Type) (next : Handler σ) (c : Ctx σ),
      INSECURE_CORS_MIDDLEWARE_FOR_DEVELOPMENT_ONLY next c req =
        if req.Method = "OPTIONS" then
          ⟨{ c.w with header := corsHeaders c.w.header req }, c.env⟩
        else next ⟨{ c.w with header := corsHeaders c.w.header req }, c.env⟩ req) :=
  corsHeaders_index h req

/-- C4: for every wrapped handler and every request, an OPTIONS request makes the
middleware return with the four headers set and nothing else changed: status and
body unwritten, the rest of the state untouched, the wrapped handler called zero
times; with the proxy as wrapped handler neither of its two handlers is entered,
whatever the headers of the request.  Any other method calls the wrapped handler
exactly once, on the writer with the four headers set. -/
theorem preflight_short_circuit {σ : Type} (h : Handler σ) (c : Ctx σ) (req : Request) :
    (req.Method = "OPTIONS" →
      INSECURE_CORS_MIDDLEWARE_FOR_DEVELOPMENT_ONLY h c req
        = ⟨{ c.w with header := corsHeaders c.w.header req }, c.env⟩ ∧
      (INSECURE_CORS_MIDDLEWARE_FOR_DEVELOPMENT_ONLY h c req).w.body = c.w.body ∧
      (INSECURE_CORS_MIDDLEWARE_FOR_DEVELOPMENT_ONLY h c req).w.sent = c.w.sent ∧
      (∀ k ∈ corsNames, ∃ v,
        (INSECURE_CORS_MIDDLEWARE_FOR_DEVELOPMENT_ONLY h c req).w.header.index k = some [v]) ∧
      (INSECURE_CORS_MIDDLEWARE_FOR_DEVELOPMENT_ONLY (counted h) ⟨c.w, (c.env, 0)⟩ req).env.2
        = 0 ∧
      (∀ (table : Char → Char) (net : Network) (p : Proxy) (d : Ctx Sys),
        (INSECURE_CORS_MIDDLEWARE_FOR_DEVELOPMENT_ONLY (p.ServeHTTP table net) d req).env
          = d.env)) ∧
    (req.Method ≠ "OPTIONS" →
      INSECURE_CORS_MIDDLEWARE_FOR_DEVELOPMENT_ONLY h c req
        = h ⟨{ c.w with header := corsHeaders c.w.header req }, c.env⟩ req ∧
      (INSECURE_CORS_MIDDLEWARE_FOR_DEVELOPMENT_ONLY (counted h) ⟨c.w, (c.env, 0)⟩ req).env.2
        = 1) := by
  constructor
  · intro hm
    have hres : ∀ (τ : Type) (g : Handler τ) (d : Ctx τ),
        INSECURE_CORS_MIDDLEWARE_FOR_DEVELOPMENT_ONLY g d req
          = ⟨{ d.w with header := corsHeaders d.w.header req }, d.env⟩ := by
      intro τ g d
      simp only [INSECURE_CORS_MIDDLEWARE_FOR_DEVELOPMENT_ONLY, hm, if_true]
    refine ⟨hres σ h c, ?_, ?_, ?_, ?_, ?_⟩
    · rw [hres]
    · rw [hres]
    · intro k hk
      rw [hres]
      obtain ⟨h1, h2, h3, h4, -, -⟩ := corsHeaders_index c.w.header req
      rw [mem_corsNames] at hk
      rcases hk with rfl | rfl | rfl | rfl
      · exact ⟨_, h1⟩
      · exact ⟨_, h2⟩
      · exact ⟨_, h3⟩
      · exact ⟨_, h4⟩
    · rw [hres]
    · intro table net p d
      rw [hres]
  · intro hm
    constructor
    · simp only [INSECURE_CORS_MIDDLEWARE_FOR_DEVELOPMENT_ONLY, hm, if_false]
    · simp only [INSECURE_CORS_MIDDLEWARE_FOR_DEVELOPMENT_ONLY, hm, if_false, counted]

/-- Witness of C4: a preflight that also asks for a websocket upgrade enters
neither handler of the proxy, and a GET reaches the proxy once. -/
theorem preflight_short_circuit_witness :
    (INSECURE_CORS_MIDDLEWARE_FOR_DEVELOPMENT_ONLY ((NewProxy 0).ServeHTTP id deadNetwork)
      ⟨freshWriter, startSys⟩ (requestOf "OPTIONS" "/ws" [("Upgrade", ["websocket"])])).env
      = startSys ∧
    (INSECURE_CORS_MIDDLEWARE_FOR_DEVELOPMENT_ONLY
      (counted ((NewProxy 0).ServeHTTP id deadNetwork))
      ⟨freshWriter, (startSys, 0)⟩ (requestOf "GET" "/jokes" [])).env.2 = 1 :=
  ⟨((preflight_short_circuit ((NewProxy 0).ServeHTTP id deadNetwork) ⟨freshWriter, startSys⟩
      (requestOf "OPTIONS" "/ws" [("Upgrade", ["websocket"])])).1 rfl).2.2.2.2.2
      id deadNetwork (NewProxy 0) ⟨freshWriter, startSys⟩,
   ((preflight_short_circuit ((NewProxy 0).ServeHTTP id deadNetwork) ⟨freshWriter, startSys⟩
      (requestOf "GET" "/jokes" [])).2 (by decide)).2⟩

/-! ## Which handler runs -/

theorem logPrintf_calls (c : Ctx Sys) (l : LogLine) : (logPrintf c l).env.calls = c.env.calls :=
  rfl

theorem proxyWebsocket_calls (p : Proxy) (net : Network) (c : Ctx Sys) (req : Request) :
    (p.proxyWebsocket net c req).env.calls = c.env.calls ++ [Call.proxyWebsocket] := by
  unfold Proxy.proxyWebsocket
  dsimp only
  repeat' split
  all_goals rfl

theorem reverseProxy_calls (rp : ReverseProxy) (net : Network) (c : Ctx Sys) (req : Request) :
    (rp.ServeHTTP net c req).env.calls = c.env.calls ++ [Call.reverseProxy] := by
  unfold ReverseProxy.ServeHTTP
  dsimp only
  repeat' split
  all_goals rfl

/-- Dropping the case of a rune as `unicode.ToLower` does it is the relation
`sameLetter`. -/
theorem unicodeToLower_eq_iff (table : Char → Char) (c l : Char) :
    unicodeToLower table c = l ↔ sameLetter table c l := by
  unfold unicodeToLower sameLetter
  by_cases h128 : c.toNat < 128
  · rw [if_pos h128]
    by_cases hup : 65 ≤ c.toNat ∧ c.toNat ≤ 90
    · have h1 : c.toLower = Char.ofNat (c.toNat + 32) := by
        unfold Char.toLower
        exact if_pos hup
      rw [h1]
      constructor
      · intro h
        exact Or.inl ⟨hup.1, hup.2, h.symm⟩
      · rintro (⟨-, -, h⟩ | ⟨-, hn, -⟩ | ⟨h, -⟩)
        · exact h.symm
        · exact absurd hup hn
        · omega
    · have h1 : c.toLower = c := by
        unfold Char.toLower
        exact if_neg hup
      rw [h1]
      constructor
      · intro h
        exact Or.inr (Or.inl ⟨h128, hup, h.symm⟩)
      · rintro (⟨h65, h90, -⟩ | ⟨-, -, h⟩ | ⟨h, -⟩)
        · exact absurd ⟨h65, h90⟩ hup
        · exact h.symm
        · omega
  · rw [if_neg h128]
    constructor
    · intro h
      exact Or.inr (Or.inr ⟨by omega, h.symm⟩)
    · rintro (⟨-, h90, -⟩ | ⟨h, -⟩ | ⟨-, h⟩)
      · omega
      · exact absurd h h128
      · exact h.symm

theorem map_lower_eq_iff (table : Char → Char) (mid ws : List Char) :
    mid.map (unicodeToLower table) = ws ↔ List.Forall₂ (sameLetter table) mid ws := by
  have h1 : List.Forall₂ (sameLetter table) mid ws
      ↔ List.Forall₂ (fun c l => unicodeToLower table c = l) mid ws := by
    constructor
    · intro h
      exact h.imp (fun c l hcl => (unicodeToLower_eq_iff table c l).mpr hcl)
    · intro h
      exact h.imp (fun c l hcl => (unicodeToLower_eq_iff table c l).mp hcl)
  rw [h1, ← List.forall₂_map_left_iff, List.forall₂_eq_eq_eq]

theorem get_upgrade_eq (req : Request) : req.Header.Get "Upgrade" = firstUpgradeValue req := by
  have hc : CanonicalMIMEHeaderKey "Upgrade" = "Upgrade" := by decide
  unfold Header.Get firstUpgradeValue
  rw [hc]

/-- The test of `ServeHTTP` (take the first Upgrade value, lower-case it, search
for `websocket`) holds exactly when that value contains `websocket` with letter
case ignored. -/
theorem contains_lower_iff_candidate (table : Char → Char) (req : Request) :
    stringsContains (stringsToLower table (req.Header.Get "Upgrade")) "websocket" = true
      ↔ upgradeCandidate table req := by
  have hd : stringsContains (stringsToLower table (req.Header.Get "Upgrade")) "websocket" = true
      ↔ "websocket".data <:+: (firstUpgradeValue req).data.map (unicodeToLower table) := by
    simp only [stringsContains, stringsToLower, decide_eq_true_eq, get_upgrade_eq]
  rw [hd]
  unfold upgradeCandidate containsIgnoringCase
  constructor
  · rintro ⟨pre, post, h⟩
    obtain ⟨l12, l3, h1, h2, h3⟩ := List.map_eq_append_iff.mp h.symm
    obtain ⟨l1, l2, h4, h5, h6⟩ := List.map_eq_append_iff.mp h2
    exact ⟨l1, l2, l3, by rw [h1, h4], (map_lower_eq_iff table l2 _).mp h6⟩
  · rintro ⟨pre, mid, post, h1, h2⟩
    refine ⟨pre.map (unicodeToLower table), post.map (unicodeToLower table), ?_⟩
    rw [h1, List.map_append, List.map_append, (map_lower_eq_iff table mid _).mpr h2]

/-- C5 as stated fails: a request whose Upgrade header has the values `h2c` and
`websocket` contains `websocket`, yet it goes to the reverse proxy, because only
the first value is read. -/
theorem second_upgrade_value_ignored :
    upgradeHeaderContains id (requestOf "GET" "/ws" [("Upgrade", ["h2c", "websocket"])]) ∧
    ((NewProxy 0).ServeHTTP id deadNetwork ⟨freshWriter, startSys⟩
      (requestOf "GET" "/ws" [("Upgrade", ["h2c", "websocket"])])).env.calls
        = [Call.reverseProxy] :=
  ⟨⟨"websocket", by decide, [], "websocket".data, [], rfl,
      (map_lower_eq_iff id _ _).mp (by decide)⟩,
   by decide⟩

/-- C5, amended: `ServeHTTP` enters the websocket tunnel exactly when the first
value of the request's Upgrade header contains `websocket` with letter case
ignored, and the reverse proxy otherwise (also when the header is missing);
either handler is entered once, after the log line; and two requests with the
same first Upgrade value are dispatched alike. -/
theorem serveHTTP_dispatch (table : Char → Char) (net : Network) (p : Proxy) (c : Ctx Sys)
    (req : Request) :
    (upgradeCandidate table req →
      p.ServeHTTP table net c req
        = p.proxyWebsocket net (logPrintf c (.proxying req.URL.Path)) req ∧
      (p.ServeHTTP table net c req).env.calls = c.env.calls ++ [Call.proxyWebsocket]) ∧
    (¬ upgradeCandidate table req →
      p.ServeHTTP table net c req
        = p.rp.ServeHTTP net (logPrintf c (.proxying req.URL.Path)) req ∧
      (p.ServeHTTP table net c req).env.calls = c.env.calls ++ [Call.reverseProxy]) ∧
    (∀ req2 : Request, firstUpgradeValue req2 = firstUpgradeValue req →
      (upgradeCandidate table req2 ↔ upgradeCandidate table req) ∧
      (p.ServeHTTP table net c req2).env.calls = (p.ServeHTTP table net c req).env.calls) := by
  have key : ∀ r : Request, (p.ServeHTTP table net c r).env.calls = c.env.calls ++
      [if stringsContains (stringsToLower table (r.Header.Get "Upgrade")) "websocket" = true
        then Call.proxyWebsocket else Call.reverseProxy] := by
    intro r
    unfold Proxy.ServeHTTP
    dsimp only
    split
    · rw [proxyWebsocket_calls, logPrintf_calls]
    · rw [reverseProxy_calls, logPrintf_calls]
  refine ⟨?_, ?_, ?_⟩
  · intro hc
    have hb := (contains_lower_iff_candidate table req).mpr hc
    refine ⟨?_, ?_⟩
    · unfold Proxy.ServeHTTP
      dsimp only
      rw [if_pos hb]
    · rw [key, if_pos hb]
  · intro hc
    have hb : ¬ stringsContains (stringsToLower table (req.Header.Get "Upgrade")) "websocket"
        = true := fun hb => hc ((contains_lower_iff_candidate table req).mp hb)
    refine ⟨?_, ?_⟩
    · unfold Proxy.ServeHTTP
      dsimp only
      rw [if_neg hb]
    · rw [key, if_neg hb]
  · intro req2 h2
    refine ⟨?_, ?_⟩
    · simp only [upgradeCandidate, h2]
    · rw [key, key, get_upgrade_eq, get_upgrade_eq, h2]

/-- Witness of C5: `Upgrade: WEBSOCKET` and `Upgrade: keep-alive, WebSocket` go
to the tunnel; `Upgrade: h2c`, and `h2c` followed by a second value `websocket`,
go to the reverse proxy. -/
theorem serveHTTP_dispatch_witness :
    ((NewProxy 0).ServeHTTP id deadNetwork ⟨freshWriter, startSys⟩
      (requestOf "GET" "/ws" [("Upgrade", ["WEBSOCKET"])])).env.calls = [Call.proxyWebsocket] ∧
    ((NewProxy 0).ServeHTTP id deadNetwork ⟨freshWriter, startSys⟩
      (requestOf "GET" "/ws" [("Upgrade", ["keep-alive, WebSocket"])])).env.calls
        = [Call.proxyWebsocket] ∧
    ((NewProxy 0).ServeHTTP id deadNetwork ⟨freshWriter, startSys⟩
      (requestOf "GET" "/ws" [("Upgrade", ["h2c"])])).env.calls = [Call.reverseProxy] ∧
    ((NewProxy 0).ServeHTTP id deadNetwork ⟨freshWriter, startSys⟩
      (requestOf "GET" "/ws" [("Upgrade", ["h2c", "websocket"])])).env.calls
        = [Call.reverseProxy] :=
  ⟨((serveHTTP_dispatch id deadNetwork (NewProxy 0) ⟨freshWriter, startSys⟩
      (requestOf "GET" "/ws" [("Upgrade", ["WEBSOCKET"])])).1
      ((contains_lower_iff_candidate id _).mp (by decide))).2,
   ((serveHTTP_dispatch id deadNetwork (NewProxy 0) ⟨freshWriter, startSys⟩
      (requestOf "GET" "/ws" [("Upgrade", ["keep-alive, WebSocket"])])).1
      ((contains_lower_iff_candidate id _).mp (by decide))).2,
   ((serveHTTP_dispatch id deadNetwork (NewProxy 0) ⟨freshWriter, startSys⟩
      (requestOf "GET" "/ws" [("Upgrade", ["h2c"])])).2.1
      (fun h => absurd ((contains_lower_iff_candidate id _).mpr h) (by decide))).2,
   ((serveHTTP_dispatch id deadNetwork (NewProxy 0) ⟨freshWriter, startSys⟩
      (requestOf "GET" "/ws" [("Upgrade", ["h2c", "websocket"])])).2.1
      (fun h => absurd ((contains_lower_iff_candidate id _).mpr h) (by decide))).2⟩

/-! ## The runs of the tunnel handler -/

/-- The cell `backendURL` allocates and the cells it leaves alone. -/
theorem backendURL_cell (p : Proxy) (heap : Heap) (req : Request) (base : URL)
    (hbase : heap.get? p.baseURL = some base) :
    ∃ a heap2 cell, backendURL p heap req = some (a, heap2) ∧ heap2.get? a = some cell ∧
      cell.Host = base.Host ∧ cell.User = base.User ∧
      cell.Path = req.URL.Path ∧ cell.RawQuery = req.URL.RawQuery ∧
      cell.Fragment = req.URL.Fragment ∧
      cell.Scheme = (if base.Scheme = "http" then "ws"
        else if base.Scheme = "https" then "wss" else base.Scheme) ∧
      cell = { base with Path := req.URL.Path, RawQuery := req.URL.RawQuery,
                         Fragment := req.URL.Fragment, Scheme := cell.Scheme } ∧
      heap2.get? p.baseURL = some base ∧ a ≠ p.baseURL ∧
      (∀ b, b < heap.length → heap2.get? b = heap.get? b) := by
  have hlt : p.baseURL < heap.length := by
    rcases Nat.lt_or_ge p.baseURL heap.length with h | h
    · exact h
    · rw [List.get?_eq_none.mpr h] at hbase
      cases hbase
  have hnew : ∀ u : URL, (heap ++ [u]).get? heap.length = some u := by
    intro u
    simp
  have hold : ∀ (u : URL) (b : Nat), b < heap.length → (heap ++ [u]).get? b = heap.get? b := by
    intro u b hb
    simp [List.getElem?_append_left hb]
  have hset : ∀ (u v : URL) (b : Nat), b < heap.length →
      ((heap ++ [u]).set heap.length v).get? b = heap.get? b := by
    intro u v b hb
    have : heap.length ≠ b := by omega
    simp [List.getElem?_set_ne this, List.getElem?_append_left hb]
  have hsetnew : ∀ (u v : URL), ((heap ++ [u]).set heap.length v).get? heap.length = some v := by
    intro u v
    simp
  unfold backendURL Proxy.rewrite
  simp only [hbase, hnew]
  by_cases h1 : base.Scheme = "http"
  · simp only [h1, if_true]
    refine ⟨_, _, _, rfl, hsetnew _ _, rfl, rfl, rfl, rfl, rfl, rfl, ?_, ?_, ?_, ?_⟩
    · cases base; simp_all
    · rw [hset _ _ _ hlt, hbase]
    · exact Nat.ne_of_gt hlt
    · intro b hb
      exact hset _ _ _ hb
  · by_cases h2 : base.Scheme = "https"
    · have h3 : ¬ ("https" = "http") := by decide
      simp only [h2, h3, if_true, if_false]
      refine ⟨_, _, _, rfl, hsetnew _ _, rfl, rfl, rfl, rfl, rfl, rfl, ?_, ?_, ?_, ?_⟩
      · cases base; simp_all
      · rw [hset _ _ _ hlt, hbase]
      · exact Nat.ne_of_gt hlt
      · intro b hb
        exact hset _ _ _ hb
    · simp only [h1, h2, if_false]
      refine ⟨_, _, _, rfl, hnew _, rfl, rfl, rfl, rfl, rfl, rfl, ?_, ?_, ?_, ?_⟩
      · rfl
      · rw [hold _ _ hlt, hbase]
      · exact Nat.ne_of_gt hlt
      · intro b hb
        exact hold _ _ hb

theorem backendURL_isSome (p : Proxy) (heap : Heap) (req : Request)
    (h : heap.get? p.baseURL ≠ none) :
    ∃ a heap2 cell, backendURL p heap req = some (a, heap2) ∧ heap2.get? a = some cell := by
  cases hb : heap.get? p.baseURL with
  | none => exact absurd hb h
  | some base =>
    obtain ⟨a, heap2, cell, h1, h2, -⟩ := backendURL_cell p heap req base hb
    exact ⟨a, heap2, cell, h1, h2⟩

theorem selectFirst_isSome (pick : Bool) (e1 e2 : List WsError) (h : e1 ≠ [] ∨ e2 ≠ []) :
    ∃ r, selectFirst pick e1 e2 = some r := by
  unfold selectFirst
  cases e1 with
  | nil =>
    cases e2 with
    | nil => simp at h
    | cons b e2 => exact ⟨_, rfl⟩
  | cons a e1 =>
    cases e2 with
    | nil => exact ⟨_, rfl⟩
    | cons b e2 =>
      cases pick
      · exact ⟨_, rfl⟩
      · exact ⟨_, rfl⟩

/-- The five ways a run of `proxyWebsocket` can go, with the connection events,
the blocking flag and the panic flag of each. -/
theorem proxyWebsocket_cases (p : Proxy) (net : Network) (c : Ctx Sys) (req : Request) :
    (c.env.heap.get? p.baseURL = none ∧
      (p.proxyWebsocket net c req).env.conns = c.env.conns ∧
      (p.proxyWebsocket net c req).env.blocked = c.env.blocked ∧
      (p.proxyWebsocket net c req).env.panicked = true) ∨
    (∃ url, (∀ r, net.dial url (requestHeader req) ≠ .connected r) ∧
      (∃ a heap2, backendURL p c.env.heap req = some (a, heap2) ∧ heap2.get? a = some url) ∧
      (p.proxyWebsocket net c req).env.conns = c.env.conns ++ [.dial url (requestHeader req)] ∧
      (p.proxyWebsocket net c req).env.blocked = c.env.blocked ∧
      (p.proxyWebsocket net c req).env.panicked = c.env.panicked) ∨
    (∃ url resp reply, net.dial url (requestHeader req) = .connected resp ∧
      (∃ a heap2, backendURL p c.env.heap req = some (a, heap2) ∧ heap2.get? a = some url) ∧
      net.upgrade p.upgrader req (upgradeHeader resp) = .failed reply ∧
      (p.proxyWebsocket net c req).env.conns = c.env.conns ++
        [.dial url (requestHeader req), .openBackend, .upgrade (upgradeHeader resp),
         .closeBackend] ∧
      (p.proxyWebsocket net c req).env.blocked = c.env.blocked ∧
      (p.proxyWebsocket net c req).env.panicked = c.env.panicked) ∨
    (∃ url resp, net.dial url (requestHeader req) = .connected resp ∧
      (∃ a heap2, backendURL p c.env.heap req = some (a, heap2) ∧ heap2.get? a = some url) ∧
      net.upgrade p.upgrader req (upgradeHeader resp) = .upgraded ∧
      selectFirst net.pick (replicateWebsocketConn net.clientWrite net.backendReads 0).errc
        (replicateWebsocketConn net.backendWrite net.clientReads 0).errc = none ∧
      (p.proxyWebsocket net c req).env.conns = c.env.conns ++
        [.dial url (requestHeader req), .openBackend, .upgrade (upgradeHeader resp),
         .openClient] ∧
      (p.proxyWebsocket net c req).env.blocked = true ∧
      (p.proxyWebsocket net c req).env.panicked = c.env.panicked) ∨
    (∃ url resp r, net.dial url (requestHeader req) = .connected resp ∧
      (∃ a heap2, backendURL p c.env.heap req = some (a, heap2) ∧ heap2.get? a = some url) ∧
      net.upgrade p.upgrader req (upgradeHeader resp) = .upgraded ∧
      selectFirst net.pick (replicateWebsocketConn net.clientWrite net.backendReads 0).errc
        (replicateWebsocketConn net.backendWrite net.clientReads 0).errc = some r ∧
      (p.proxyWebsocket net c req).env.conns = c.env.conns ++
        [.dial url (requestHeader req), .openBackend, .upgrade (upgradeHeader resp),
         .openClient, .closeClient, .closeBackend] ∧
      (p.proxyWebsocket net c req).env.blocked = c.env.blocked ∧
      (p.proxyWebsocket net c req).env.panicked = c.env.panicked) := by
  have hurl := backendURL_isSome p c.env.heap req
  unfold Proxy.proxyWebsocket
  dsimp only
  cases hb : backendURL p c.env.heap req with
  | none =>
    have hnone : c.env.heap.get? p.baseURL = none := by
      by_contra hne
      obtain ⟨a, heap2, cell, h1, -⟩ := hurl hne
      rw [hb] at h1
      cases h1
    exact Or.inl ⟨hnone, rfl, rfl, rfl⟩
  | some ab =>
    obtain ⟨backend, heap⟩ := ab
    dsimp only
    cases hg : heap.get? backend with
    | none =>
      have hnone : c.env.heap.get? p.baseURL = none := by
        by_contra hne
        obtain ⟨a, heap2, cell, h1, h2⟩ := hurl hne
        rw [hb] at h1
        cases h1
        rw [hg] at h2
        cases h2
      exact Or.inl ⟨hnone, rfl, rfl, rfl⟩
    | some url =>
      dsimp only
      cases hd : net.dial url (requestHeader req) with
      | refused =>
        refine Or.inr (Or.inl ⟨url, ?_, ⟨backend, heap, rfl, hg⟩, ?_, rfl, rfl⟩)
        · intro r hr
          rw [hd] at hr
          cases hr
        · simp [returnWith, logPrintf, connEvent]
      | rejected resp =>
        refine Or.inr (Or.inl ⟨url, ?_, ⟨backend, heap, rfl, hg⟩, ?_, ?_, ?_⟩)
        · intro r hr
          rw [hd] at hr
          cases hr
        · dsimp only
          split <;> simp [returnWith, logPrintf, connEvent]
        · dsimp only
          split <;> rfl
        · dsimp only
          split <;> rfl
      | connected resp =>
        dsimp only
        cases hu : net.upgrade p.upgrader req (upgradeHeader resp) with
        | failed reply =>
          refine Or.inr (Or.inr (Or.inl ⟨url, resp, reply, hd, ⟨backend, heap, rfl, hg⟩, hu, ?_, ?_, ?_⟩))
          · cases reply <;> simp [returnWith, logPrintf, connEvent]
          · cases reply <;> rfl
          · cases reply <;> rfl
        | upgraded =>
          dsimp only
          cases hs : selectFirst net.pick
              (replicateWebsocketConn net.clientWrite net.backendReads 0).errc
              (replicateWebsocketConn net.backendWrite net.clientReads 0).errc with
          | none =>
            refine Or.inr (Or.inr (Or.inr (Or.inl ⟨url, resp, hd, ⟨backend, heap, rfl, hg⟩, hu, rfl, ?_, rfl, rfl⟩)))
            simp [returnWith, logPrintf, connEvent]
          | some r =>
            obtain ⟨message, err⟩ := r
            refine Or.inr (Or.inr (Or.inr (Or.inr ⟨url, resp, (message, err), hd, ⟨backend, heap, rfl, hg⟩, hu, rfl,
              ?_, ?_, ?_⟩)))
            · cases err <;> simp [returnWith, logPrintf, connEvent]
            · cases err <;> rfl
            · cases err <;> rfl

/-- What `proxyWebsocket` dials when `baseURL` is not nil: the cell `backendURL`
made, with the headers of `requestHeader`; and when that dial succeeds, it opens
the backend connection and hands `upgradeHeader` of the handshake response to
the upgrader. -/
theorem proxyWebsocket_dial (p : Proxy) (net : Network) (c : Ctx Sys) (req : Request)
    (hne : c.env.heap.get? p.baseURL ≠ none) :
    ∃ a heap2 url rest, backendURL p c.env.heap req = some (a, heap2) ∧
      heap2.get? a = some url ∧
      (p.proxyWebsocket net c req).env.conns
        = c.env.conns ++ .dial url (requestHeader req) :: rest ∧
      (∀ resp, net.dial url (requestHeader req) = .connected resp →
        ∃ rest2, rest = .openBackend :: .upgrade (upgradeHeader resp) :: rest2) := by
  rcases proxyWebsocket_cases p net c req with
    ⟨hnone, -⟩ | ⟨url, hdial, ⟨a, heap2, hb, hg⟩, hc, -⟩ |
    ⟨url, resp0, reply, hd, ⟨a, heap2, hb, hg⟩, -, hc, -⟩ |
    ⟨url, resp0, hd, ⟨a, heap2, hb, hg⟩, -, -, hc, -⟩ |
    ⟨url, resp0, r, hd, ⟨a, heap2, hb, hg⟩, -, -, hc, -⟩
  · exact absurd hnone hne
  · exact ⟨a, heap2, url, [], hb, hg, hc, fun resp h => absurd h (hdial resp)⟩
  · refine ⟨a, heap2, url, _, hb, hg, hc, fun resp h => ?_⟩
    rw [hd] at h
    cases h
    exact ⟨_, rfl⟩
  · refine ⟨a, heap2, url, _, hb, hg, hc, fun resp h => ?_⟩
    rw [hd] at h
    cases h
    exact ⟨_, rfl⟩
  · refine ⟨a, heap2, url, _, hb, hg, hc, fun resp h => ?_⟩
    rw [hd] at h
    cases h
    exact ⟨_, rfl⟩

/-! ## The headers and the URL of the backend dial -/

theorem indexByte_none (s : List Char) (c : Char) (h : c ∉ s) : indexByte s c = none := by
  unfold indexByte
  have : s.indexOf c = s.length := List.indexOf_eq_length.mpr h
  simp [this]

theorem lastIndexByte_sep (host port : List Char) (hp : ':' ∉ port) :
    lastIndexByte (host ++ ':' :: port) ':' = some host.length := by
  unfold lastIndexByte indexByte
  have hr : (host ++ ':' :: port).reverse = port.reverse ++ ':' :: host.reverse := by simp
  have hi : (port.reverse ++ ':' :: host.reverse).indexOf ':' = port.length := by
    rw [List.indexOf_append_of_not_mem (by simpa using hp), List.indexOf_cons_self]
    simp
  rw [hr]
  simp only [hi]
  have hl : port.length < (port.reverse ++ ':' :: host.reverse).length := by
    simp
  simp only [hl, if_true]
  simp

/-- A remote address `host:port` whose host and port hold no colon or bracket
splits into the two. -/
theorem splitHostPort_plain (host port : List Char)
    (hh : ':' ∉ host ∧ '[' ∉ host ∧ ']' ∉ host) (hp : ':' ∉ port ∧ '[' ∉ port ∧ ']' ∉ port) :
    SplitHostPort (String.mk (host ++ ':' :: port)) = .ok (String.mk host, String.mk port) := by
  have hhead : (host ++ ':' :: port).head? ≠ some '[' := by
    cases host with
    | nil => simp
    | cons a t =>
      simp only [List.cons_append, List.head?_cons, ne_eq, Option.some.injEq]
      intro h
      exact hh.2.1 (h ▸ List.mem_cons_self _ _)
  have hb1 : '[' ∉ host ++ ':' :: port := by
    simp [hh.2.1, hp.2.1]
  have hb2 : ']' ∉ host ++ ':' :: port := by
    simp [hh.2.2, hp.2.2]
  unfold SplitHostPort
  simp only [lastIndexByte_sep host port hp.1, if_neg hhead, List.take_left,
    indexByte_none host ':' hh.1, indexByte_none _ '[' hb1, indexByte_none _ ']' hb2,
    Option.isSome_none, Bool.false_eq_true, if_false]
  simp

theorem intercalate_go_eq (sep : String) (l : List String) (acc : String) (hl : l ≠ []) :
    String.intercalate.go acc sep l = acc ++ sep ++ stringsJoin l sep := by
  induction l generalizing acc with
  | nil => exact absurd rfl hl
  | cons a as ih =>
    cases as with
    | nil => rfl
    | cons b rest =>
      show String.intercalate.go (acc ++ sep ++ a) sep (b :: rest) = _
      rw [ih (acc ++ sep ++ a) (List.cons_ne_nil _ _)]
      show acc ++ sep ++ a ++ sep ++ stringsJoin (b :: rest) sep
        = acc ++ sep ++ (a ++ sep ++ stringsJoin (b :: rest) sep)
      simp only [String.append_assoc]

/-- `strings.Join` is the library's `intercalate`: the elements in order with
the separator between neighbours. -/
theorem stringsJoin_eq_intercalate (l : List String) (sep : String) :
    stringsJoin l sep = sep.intercalate l := by
  cases l with
  | nil => rfl
  | cons a as =>
    cases as with
    | nil => rfl
    | cons b rest =>
      show a ++ sep ++ stringsJoin (b :: rest) sep = String.intercalate.go a sep (b :: rest)
      rw [intercalate_go_eq sep (b :: rest) a (List.cons_ne_nil _ _)]

theorem indexByte_first (pre post : List Char) (c : Char) (h : c ∉ pre) :
    indexByte (pre ++ c :: post) c = some pre.length := by
  unfold indexByte
  have hi : (pre ++ c :: post).indexOf c = pre.length := by
    rw [List.indexOf_append_of_not_mem h, List.indexOf_cons_self]
    simp
  simp only [hi]
  have hl : pre.length < (pre ++ c :: post).length := by simp
  simp only [hl, if_true]

theorem splitHostPort_bracketed (host port : List Char)
    (hh : '[' ∉ host ∧ ']' ∉ host) (hp : ':' ∉ port ∧ '[' ∉ port ∧ ']' ∉ port) :
    SplitHostPort (String.mk ('[' :: host ++ ']' :: ':' :: port))
      = .ok (String.mk host, String.mk port) := by
  have hlast : lastIndexByte ('[' :: host ++ ']' :: ':' :: port) ':' = some (host.length + 2) := by
    have := lastIndexByte_sep ('[' :: host ++ [']']) port hp.1
    simpa using this
  have hfirst : indexByte ('[' :: host ++ ']' :: ':' :: port) ']' = some (host.length + 1) := by
    have hn : ']' ∉ '[' :: host := by
      simp only [List.mem_cons, not_or]
      exact ⟨by decide, hh.2⟩
    have := indexByte_first ('[' :: host) (':' :: port) ']' hn
    simpa using this
  have hb1 : '[' ∉ host ++ ']' :: ':' :: port := by
    simp only [List.mem_append, List.mem_cons, not_or]
    exact ⟨hh.1, by decide, by decide, hp.2.1⟩
  have hb2 : ']' ∉ ':' :: port := by
    simp only [List.mem_cons, not_or]
    exact ⟨by decide, hp.2.2⟩
  have hlen : ¬ (host.length + 1 + 1 = ('[' :: host ++ ']' :: ':' :: port).length) := by
    simp
  have hdrop1 : ('[' :: host ++ ']' :: ':' :: port).drop 1 = host ++ ']' :: ':' :: port := rfl
  have hdrop2 : ('[' :: host ++ ']' :: ':' :: port).drop (host.length + 1 + 1) = ':' :: port := by
    have : '[' :: host ++ ']' :: ':' :: port = ('[' :: host ++ [']']) ++ ':' :: port := by simp
    rw [this]
    have hl : ('[' :: host ++ [']']).length = host.length + 1 + 1 := by simp
    rw [← hl, List.drop_left]
  have hdrop3 : ('[' :: host ++ ']' :: ':' :: port).drop (host.length + 2 + 1) = port := by
    have : '[' :: host ++ ']' :: ':' :: port = ('[' :: host ++ [']', ':']) ++ port := by simp
    rw [this]
    have hl : ('[' :: host ++ [']', ':']).length = host.length + 2 + 1 := by simp
    rw [← hl, List.drop_left]
  have htake : (('[' :: host ++ ']' :: ':' :: port).take (host.length + 1)).drop 1 = host := by
    have : '[' :: host ++ ']' :: ':' :: port = ('[' :: host) ++ ']' :: ':' :: port := by simp
    rw [this]
    have hl : ('[' :: host).length = host.length + 1 := by simp
    rw [← hl, List.take_left]
    rfl
  unfold SplitHostPort
  simp only [hlast, hfirst, hlen, if_false, hdrop1, hdrop2, hdrop3, htake,
    indexByte_none _ '[' hb1, indexByte_none _ ']' hb2, Option.isSome_none, Bool.false_eq_true]
  simp

/-- A remote address of the form host:port splits into the host, without
brackets, and the port. -/
theorem splitHostPort_form (addr host port : String) (h : remoteAddrForm addr host port) :
    SplitHostPort addr = .ok (host, port) := by
  obtain ⟨hport, ⟨rfl, hhost⟩ | ⟨rfl, hhost⟩⟩ := h
  · have h : host ++ ":" ++ port = String.mk (host.data ++ ':' :: port.data) := by
      apply String.ext
      simp
    rw [h]
    exact splitHostPort_plain host.data port.data hhost hport
  · have h : "[" ++ host ++ "]:" ++ port
        = String.mk ('[' :: host.data ++ ']' :: ':' :: port.data) := by
      apply String.ext
      simp
    rw [h]
    exact splitHostPort_bracketed host.data port.data hhost hport

/-- The X-Forwarded-For value of the dial headers in terms of what
`SplitHostPort` returns. -/
theorem requestHeader_forwardedFor (req : Request) (clientIP port : String)
    (hsplit : SplitHostPort req.RemoteAddr = .ok (clientIP, port)) :
    (requestHeader req).index "X-Forwarded-For" =
      some [match req.Header.index "X-Forwarded-For" with
            | some prior => stringsJoin prior ", " ++ ", " ++ clientIP
            | none => clientIP] := by
  have hne : "X-Forwarded-For" ≠ "X-Forwarded-Proto" := by decide
  unfold requestHeader
  simp only [hsplit, Header.Set, canon_forwardedFor, canon_forwardedProto]
  split
  · rw [Header.index_store_ne _ hne, Header.index_store_ne _ hne, Header.index_store_self]
  · rw [Header.index_store_ne _ hne, Header.index_store_self]

/-- C6 as stated fails: for a request whose header map holds an X-Forwarded-For
entry with no value, the dial header is comma, space and the address, not the
address alone. -/
theorem empty_forwardedFor_entry :
    (requestHeader (requestOf "GET" "/ws" [("X-Forwarded-For", [])])).index "X-Forwarded-For"
      = some [", 2.2.2.2"] ∧
    ¬ forwardedForAsClaimed (requestOf "GET" "/ws" [("X-Forwarded-For", [])]) "2.2.2.2" := by
  constructor
  · decide
  · unfold forwardedForAsClaimed
    decide

/-- C6, amended: for a request whose remote address has the form host:port, the
dial header X-Forwarded-For holds one value, built from `host`, the address
without its port (and without the brackets of an IPv6 literal): when
the request's header map has an X-Forwarded-For entry, the entry's values in
order with comma and space between them, followed by comma, space and `host`
(so an entry without values gives comma, space, `host`); when it has no such
entry, `host` alone.  These are the headers `proxyWebsocket` dials with. -/
theorem forwardedFor_value (req : Request) (host port : String)
    (haddr : remoteAddrForm req.RemoteAddr host port) :
    (requestHeader req).index "X-Forwarded-For" =
      some [match req.Header.index "X-Forwarded-For" with
            | some prior => ", ".intercalate prior ++ ", " ++ host
            | none => host] ∧
    (∀ (p : Proxy) (net : Network) (c : Ctx Sys), c.env.heap.get? p.baseURL ≠ none →
      ∃ url rest, (p.proxyWebsocket net c req).env.conns
        = c.env.conns ++ .dial url (requestHeader req) :: rest) := by
  have hsplit : SplitHostPort req.RemoteAddr = .ok (host, port) :=
    splitHostPort_form req.RemoteAddr host port haddr
  constructor
  · rw [requestHeader_forwardedFor req host port hsplit]
    cases req.Header.index "X-Forwarded-For" with
    | none => rfl
    | some prior =>
      show some [stringsJoin prior ", " ++ ", " ++ host] = _
      rw [stringsJoin_eq_intercalate]
  · intro p net c hbase
    obtain ⟨a, heap2, url, rest, -, -, hc, -⟩ := proxyWebsocket_dial p net c req hbase
    exact ⟨url, rest, hc⟩

/-- Witness of C6: the example of the specification (prior value 1.1.1.1, remote
address 2.2.2.2:5555), two prior values, no prior entry, and an IPv6 client. -/
theorem forwardedFor_value_witness :
    (requestHeader (requestOf "GET" "/ws" [("X-Forwarded-For", ["1.1.1.1"])])).index
      "X-Forwarded-For" = some ["1.1.1.1, 2.2.2.2"] ∧
    (requestHeader (requestOf "GET" "/ws" [("X-Forwarded-For", ["1.1.1.1", "3.3.3.3"])])).index
      "X-Forwarded-For" = some ["1.1.1.1, 3.3.3.3, 2.2.2.2"] ∧
    (requestHeader (requestOf "GET" "/ws" [])).index "X-Forwarded-For" = some ["2.2.2.2"] ∧
    (requestHeader { requestOf "GET" "/ws" [("X-Forwarded-For", ["1.1.1.1"])] with
      RemoteAddr := "[::1]:5555" }).index "X-Forwarded-For" = some ["1.1.1.1, ::1"] :=
  ⟨(forwardedFor_value (requestOf "GET" "/ws" [("X-Forwarded-For", ["1.1.1.1"])])
      "2.2.2.2" "5555" ⟨by decide, Or.inl ⟨rfl, by decide⟩⟩).1,
   (forwardedFor_value (requestOf "GET" "/ws" [("X-Forwarded-For", ["1.1.1.1", "3.3.3.3"])])
      "2.2.2.2" "5555" ⟨by decide, Or.inl ⟨rfl, by decide⟩⟩).1,
   (forwardedFor_value (requestOf "GET" "/ws" []) "2.2.2.2" "5555"
      ⟨by decide, Or.inl ⟨rfl, by decide⟩⟩).1,
   (forwardedFor_value { requestOf "GET" "/ws" [("X-Forwarded-For", ["1.1.1.1"])] with
      RemoteAddr := "[::1]:5555" } "::1" "5555" ⟨by decide, Or.inr ⟨rfl, by decide⟩⟩).1⟩

/-- C7: when `baseURL` points to a URL `base`, the backend URL of an upgrade
request is a new cell that agrees with `base` (host and user info among the
rest) except for path, query and fragment, which are the request's, and the
scheme, which is `ws` for `http`, `wss` for `https` and unchanged otherwise;
every cell that existed before, the one `baseURL` points to among them, is
unchanged; and this cell is the URL `proxyWebsocket` dials. -/
theorem backendURL_value (p : Proxy) (heap : Heap) (req : Request) (base : URL)
    (hbase : heap.get? p.baseURL = some base) :
    ∃ a heap2 cell, backendURL p heap req = some (a, heap2) ∧ heap2.get? a = some cell ∧
      cell.Host = base.Host ∧ cell.User = base.User ∧
      cell.Path = req.URL.Path ∧ cell.RawQuery = req.URL.RawQuery ∧
      cell.Fragment = req.URL.Fragment ∧
      cell.Scheme = (if base.Scheme = "http" then "ws"
        else if base.Scheme = "https" then "wss" else base.Scheme) ∧
      cell = { base with Path := req.URL.Path, RawQuery := req.URL.RawQuery,
                         Fragment := req.URL.Fragment, Scheme := cell.Scheme } ∧
      heap2.get? p.baseURL = some base ∧ a ≠ p.baseURL ∧
      (∀ b, b < heap.length → heap2.get? b = heap.get? b) ∧
      (∀ (net : Network) (c : Ctx Sys), c.env.heap = heap →
        ∃ rest, (p.proxyWebsocket net c req).env.conns
          = c.env.conns ++ .dial cell (requestHeader req) :: rest) := by
  obtain ⟨a, heap2, cell, h1, h2, h3, h4, h5, h6, h7, h8, h9, h10, h11, h12⟩ :=
    backendURL_cell p heap req base hbase
  refine ⟨a, heap2, cell, h1, h2, h3, h4, h5, h6, h7, h8, h9, h10, h11, h12, ?_⟩
  intro net c hc
  subst hc
  have hne : c.env.heap.get? p.baseURL ≠ none := by
    rw [hbase]
    exact Option.some_ne_none _
  obtain ⟨a1, heap1, url, rest, hb, hg, hconns, -⟩ := proxyWebsocket_dial p net c req hne
  rw [h1] at hb
  cases hb
  rw [h2] at hg
  cases hg
  exact ⟨rest, hconns⟩

/-- Witness of C7: the upstream of `main` and a request for `/ws`. -/
theorem backendURL_value_witness :
    ∃ a heap2 cell, backendURL (NewProxy 0) [jokesURL] (requestOf "GET" "/ws" []) = some (a, heap2) ∧
      heap2.get? a = some cell ∧ cell.Scheme = "wss" ∧ cell.Host = "icanhazdadjoke.com" ∧
      cell.Path = "/ws" ∧ heap2.get? 0 = some jokesURL := by
  obtain ⟨a, heap2, cell, h1, h2, h3, -, h5, -, -, h8, -, h10, -, -, -⟩ :=
    backendURL_value (NewProxy 0) [jokesURL] (requestOf "GET" "/ws" []) jokesURL rfl
  exact ⟨a, heap2, cell, h1, h2, h8, h3, h5, h10⟩

/-! ## The headers of the client-side upgrade -/

/-- What the upgrader is given, for every handshake response: no name other
than Sec-Websocket-Protocol and Set-Cookie; under each of the two, the first of
the values the response holds under that name when that value is not empty, and
nothing otherwise.  A backend that accepts with one protocol and one cookie
yields exactly that protocol and that cookie.  This header set is the one
`proxyWebsocket` hands to the upgrader after a successful dial. -/
theorem upgradeHeader_first_values (resp : Response) :
    (∀ k ∈ (upgradeHeader resp).keys, k = "Sec-Websocket-Protocol" ∨ k = "Set-Cookie") ∧
    (∀ k ∈ ["Sec-Websocket-Protocol", "Set-Cookie"],
      (upgradeHeader resp).index k =
        match resp.Header.index k with
        | some (v :: _) => if v = "" then none else some [v]
        | _ => none) ∧
    (∀ proto cookie : String, proto ≠ "" → cookie ≠ "" →
      resp.Header.index "Sec-Websocket-Protocol" = some [proto] →
      resp.Header.index "Set-Cookie" = some [cookie] →
      upgradeHeader resp = [("Sec-Websocket-Protocol", [proto]), ("Set-Cookie", [cookie])]) ∧
    (∀ (p : Proxy) (net : Network) (c : Ctx Sys) (req : Request),
      c.env.heap.get? p.baseURL ≠ none → (∀ u h, net.dial u h = .connected resp) →
      ∃ url rest, (p.proxyWebsocket net c req).env.conns = c.env.conns ++
        .dial url (requestHeader req) :: .openBackend :: .upgrade (upgradeHeader resp) :: rest) := by
  have hne : "Sec-Websocket-Protocol" ≠ "Set-Cookie" := by decide
  have hne2 : "Set-Cookie" ≠ "Sec-Websocket-Protocol" := by decide
  have hget : ∀ k, CanonicalMIMEHeaderKey k = k →
      (match resp.Header.index k with
        | some (v :: _) => if v = "" then none else some [v]
        | _ => none)
      = if resp.Header.Get k = "" then (none : Option (List String))
        else some [resp.Header.Get k] := by
    intro k hk
    unfold Header.Get
    rw [hk]
    rcases resp.Header.index k with _ | (_ | ⟨v, vs⟩) <;> simp
  have shape : upgradeHeader resp =
      (if resp.Header.Get "Sec-Websocket-Protocol" = "" then []
        else [("Sec-Websocket-Protocol", [resp.Header.Get "Sec-Websocket-Protocol"])]) ++
      (if resp.Header.Get "Set-Cookie" = "" then []
        else [("Set-Cookie", [resp.Header.Get "Set-Cookie"])]) := by
    unfold upgradeHeader
    by_cases h1 : resp.Header.Get "Sec-Websocket-Protocol" = "" <;>
    by_cases h2 : resp.Header.Get "Set-Cookie" = "" <;>
    simp [h1, h2, Header.Set, Header.store, Header.index, canon_protocol, canon_setCookie]
  refine ⟨?_, ?_, ?_, ?_⟩
  rotate_left 3
  · intro p net c req hbase hdial
    obtain ⟨a, heap2, url, rest, -, -, hc, hup⟩ := proxyWebsocket_dial p net c req hbase
    obtain ⟨rest2, rfl⟩ := hup resp (hdial _ _)
    exact ⟨url, rest2, hc⟩
  · intro k hk
    rw [shape] at hk
    by_cases h1 : resp.Header.Get "Sec-Websocket-Protocol" = "" <;>
    by_cases h2 : resp.Header.Get "Set-Cookie" = "" <;>
    simp [h1, h2, Header.keys] at hk <;> tauto
  · intro k hk
    simp only [List.mem_cons, List.mem_singleton, List.not_mem_nil, or_false] at hk
    rcases hk with rfl | rfl
    · rw [hget _ canon_protocol, shape]
      by_cases h1 : resp.Header.Get "Sec-Websocket-Protocol" = "" <;>
      by_cases h2 : resp.Header.Get "Set-Cookie" = "" <;>
      simp [h1, h2, Header.index]
    · rw [hget _ canon_setCookie, shape]
      by_cases h1 : resp.Header.Get "Sec-Websocket-Protocol" = "" <;>
      by_cases h2 : resp.Header.Get "Set-Cookie" = "" <;>
      simp [h1, h2, Header.index]
  · intro proto cookie hp hc h1 h2
    have g1 : resp.Header.Get "Sec-Websocket-Protocol" = proto := by
      simp only [Header.Get, canon_protocol, h1]
    have g2 : resp.Header.Get "Set-Cookie" = cookie := by
      simp only [Header.Get, canon_setCookie, h2]
    rw [shape, g1, g2, if_neg hp, if_neg hc]
    rfl

/-- C8 fails for a backend that sets two cookies: the handshake response holds
the values a=1 and b=2 under Set-Cookie, the header set handed to the upgrader
holds a=1 only, so the backend's values are not passed on; on the request side
every Cookie value is forwarded to the backend. -/
theorem upgradeHeader_drops_later_cookies :
    twoCookies.Header.index "Set-Cookie" = some ["a=1", "b=2"] ∧
    upgradeHeader twoCookies = [("Set-Cookie", ["a=1"])] ∧
    ¬ passesBackendValues twoCookies ∧
    ConnEvent.upgrade [("Set-Cookie", ["a=1"])] ∈
      ((NewProxy 0).proxyWebsocket (acceptingNetwork twoCookies) ⟨freshWriter, startSys⟩
        upgradeRequest).env.conns ∧
    (requestHeader (requestOf "GET" "/ws" [("Cookie", ["a=1", "b=2"])])).index "Cookie"
      = some ["a=1", "b=2"] := by
  refine ⟨by decide, by decide, ?_, by decide, by decide⟩
  intro h
  have h1 := h "Set-Cookie" (by simp) ["a=1", "b=2"] (by decide)
  revert h1
  decide

/-! ## The relay loop -/

theorem formatClose_of_ne (code : Int) (text : String) (h : code ≠ CloseNoStatusReceived) :
    FormatCloseMessage code text =
      [UInt8.ofNat ((code % 65536).toNat / 256), UInt8.ofNat ((code % 65536).toNat % 256)]
        ++ utf8 text := by
  simp only [FormatCloseMessage, if_neg h]

theorem decode_formatClose (code : Int) (text : String) (h : code ≠ CloseNoStatusReceived)
    (h0 : 0 ≤ code) (h1 : code < 65536) :
    decodeClose (FormatCloseMessage code text) = some (code, utf8 text) := by
  obtain ⟨c, rfl⟩ := Int.eq_ofNat_of_zero_le h0
  have hc : c < 65536 := by omega
  have hm : ((c : Int) % 65536).toNat = c := by omega
  rw [formatClose_of_ne _ _ h, hm]
  simp only [decodeClose, List.cons_append, List.nil_append, Option.some.injEq, Prod.mk.injEq,
    and_true]
  have e1 : (UInt8.ofNat (c / 256)).toNat = c / 256 := by
    show (c / 256) % 256 = c / 256
    omega
  have e2 : (UInt8.ofNat (c % 256)).toNat = c % 256 := by
    show (c % 256) % 256 = c % 256
    omega
  rw [e1, e2]
  congr 1
  omega

theorem relay_errc_length (dst : Nat → Option WsError) (src : List ReadResult) (n : Nat) :
    (replicateWebsocketConn dst src n).errc.length ≤ 1 := by
  induction src generalizing n with
  | nil => simp [replicateWebsocketConn]
  | cons r src ih =>
    cases r with
    | failure err => simp [replicateWebsocketConn]
    | message t m =>
      simp only [replicateWebsocketConn]
      split
      · simp
      · exact ih (n + 1)

theorem relay_after_messages (dst : Nat → Option WsError) (err : WsError)
    (rest : List ReadResult) (msgs : List (Int × Bytes)) (n : Nat)
    (hw : ∀ i, i < msgs.length → dst (n + i) = none) :
    replicateWebsocketConn dst
        (msgs.map (fun m => ReadResult.message m.1 m.2) ++ .failure err :: rest) n
      = ⟨msgs ++ [(CloseMessage, closePayload err)], [err], true⟩ := by
  induction msgs generalizing n with
  | nil => simp [replicateWebsocketConn]
  | cons m msgs ih =>
    have h0 : dst n = none := hw 0 (by simp)
    have hrest : ∀ i, i < msgs.length → dst (n + 1 + i) = none := by
      intro i hi
      have := hw (i + 1) (by simp; omega)
      rwa [show n + (i + 1) = n + 1 + i by omega] at this
    have hstep : replicateWebsocketConn dst
        (ReadResult.message m.1 m.2 ::
          (msgs.map (fun m => ReadResult.message m.1 m.2) ++ .failure err :: rest)) n
        = { replicateWebsocketConn dst
              (msgs.map (fun m => ReadResult.message m.1 m.2) ++ .failure err :: rest) (n + 1)
            with writes := (m.1, m.2) :: (replicateWebsocketConn dst
              (msgs.map (fun m => ReadResult.message m.1 m.2) ++ .failure err :: rest)
              (n + 1)).writes } := by
      simp only [replicateWebsocketConn, h0]
    rw [List.map_cons, List.cons_append, hstep, ih (n + 1) hrest]
    rfl

/-- C9 as stated fails at code 1005: for a close error with no status the loop
writes code 1000 with the error's text, not code 1005 with the empty reason. -/
theorem noStatus_not_reused : ¬ reusesCodeAndReason 1005 "" := by
  have h : closePayload (.close 1005 "")
      = FormatCloseMessage 1000 (closeErrorText 1005 "") := by
    simp [closePayload, CloseNoStatusReceived, CloseNormalClosure, WsError.Error]
  unfold reusesCodeAndReason
  rw [h, decode_formatClose 1000 _ (by decide) (by decide) (by decide)]
  simp

/-- C9, amended: on a read failure the loop writes one close message to the
destination, sends the failure on its channel as the only value, and stops.  The
payload reuses the code and the reason of a close error for every code except
1005 (no status received); for a close error with code 1005, and for any other
failure, it holds the normal-closure code 1000 with the failure's text.  The
same holds after any number of relayed messages, and no run of the loop sends
more than one value. -/
theorem relay_read_failure (dst : Nat → Option WsError) (err : WsError)
    (rest : List ReadResult) (n : Nat) :
    replicateWebsocketConn dst (.failure err :: rest) n
      = ⟨[(CloseMessage, closePayload err)], [err], true⟩ ∧
    (∀ code text, err = .close code text → code ≠ CloseNoStatusReceived →
      closePayload err = FormatCloseMessage code text ∧
      (0 ≤ code → code < 65536 → decodeClose (closePayload err) = some (code, utf8 text))) ∧
    ((∃ text, err = .close CloseNoStatusReceived text) ∨ (∃ msg, err = .other msg) →
      closePayload err = FormatCloseMessage CloseNormalClosure err.Error ∧
      decodeClose (closePayload err) = some (CloseNormalClosure, utf8 err.Error)) ∧
    (∀ msgs : List (Int × Bytes), (∀ i, i < msgs.length → dst (n + i) = none) →
      replicateWebsocketConn dst
          (msgs.map (fun m => ReadResult.message m.1 m.2) ++ .failure err :: rest) n
        = ⟨msgs ++ [(CloseMessage, closePayload err)], [err], true⟩) ∧
    (∀ src m, (replicateWebsocketConn dst src m).errc.length ≤ 1) := by
  refine ⟨rfl, ?_, ?_, ?_, ?_⟩
  · rintro code text rfl hne
    have hp : closePayload (.close code text) = FormatCloseMessage code text := by
      simp only [closePayload, if_pos hne]
    refine ⟨hp, fun h0 h1 => ?_⟩
    rw [hp, decode_formatClose code text hne h0 h1]
  · intro h
    have hp : closePayload err = FormatCloseMessage CloseNormalClosure err.Error := by
      rcases h with ⟨text, rfl⟩ | ⟨msg, rfl⟩
      · simp only [closePayload, ne_eq, not_true_eq_false, if_false]
      · rfl
    refine ⟨hp, ?_⟩
    rw [hp, decode_formatClose CloseNormalClosure _ (by decide) (by decide) (by decide)]
  · intro msgs hw
    exact relay_after_messages dst err rest msgs n hw
  · intro src m
    exact relay_errc_length dst src m

/-- Witness of C9: a backend that closes with 1001 after one relayed text
message, and a connection that fails with an ordinary error. -/
theorem relay_read_failure_witness :
    replicateWebsocketConn (fun _ => none)
        [.message 1 [104, 105], .failure (.close 1001 "bye"), .message 1 []] 0
      = ⟨[(1, [104, 105]), (CloseMessage, FormatCloseMessage 1001 "bye")],
          [.close 1001 "bye"], true⟩ ∧
    decodeClose (closePayload (.close 1001 "bye")) = some (1001, utf8 "bye") ∧
    decodeClose (closePayload (.other "EOF")) = some (1000, utf8 "EOF") := by
  have h := relay_read_failure (fun _ => none) (.close 1001 "bye") [.message 1 []] 0
  have h2 := relay_read_failure (fun _ => none) (.other "EOF") [] 0
  refine ⟨?_, ?_, ?_⟩
  · have := h.2.2.2.1 [(1, [104, 105])] (fun _ _ => rfl)
    rw [(h.2.1 1001 "bye" rfl (by decide)).1] at this
    exact this
  · exact (h.2.1 1001 "bye" rfl (by decide)).2 (by decide) (by decide)
  · exact (h2.2.2.1 (Or.inr ⟨"EOF", rfl⟩)).2

/-! ## The life of the two connections -/

/-- C10: in every run of `proxyWebsocket` that starts in a running state, with
`added` the connection events of the run: when the handler has not blocked,
every connection opened in the run has been closed; a nil dereference happens
before anything is opened; a failed dial opens nothing and the handler returns;
a successful dial followed by a failed upgrade opens and closes the backend
connection only; and when both succeed and at least one relay direction reports
an outcome, the handler returns, having closed the client connection and then
the backend connection, whether or not the other direction ever reports. -/
theorem tunnel_closes_connections (p : Proxy) (net : Network) (c : Ctx Sys) (req : Request)
    (hrun : c.env.blocked = false ∧ c.env.panicked = false) :
    (p.proxyWebsocket net c req).env.conns
      = c.env.conns ++ (p.proxyWebsocket net c req).env.conns.drop c.env.conns.length ∧
    ((p.proxyWebsocket net c req).env.blocked = false →
      leaks ((p.proxyWebsocket net c req).env.conns.drop c.env.conns.length) = false) ∧
    ((p.proxyWebsocket net c req).env.panicked = true →
      (p.proxyWebsocket net c req).env.conns = c.env.conns) ∧
    ((∀ u h r, net.dial u h ≠ .connected r) →
      lifecycle ((p.proxyWebsocket net c req).env.conns.drop c.env.conns.length) = [] ∧
      (p.proxyWebsocket net c req).env.blocked = false) ∧
    ((∀ u h, ∃ r, net.dial u h = .connected r) →
      (∀ up rq h, ∃ r, net.upgrade up rq h = .failed r) →
      c.env.heap.get? p.baseURL ≠ none →
      lifecycle ((p.proxyWebsocket net c req).env.conns.drop c.env.conns.length)
        = [.openBackend, .closeBackend] ∧
      (p.proxyWebsocket net c req).env.blocked = false ∧
      (p.proxyWebsocket net c req).env.panicked = false) ∧
    ((∀ u h, ∃ r, net.dial u h = .connected r) →
      (∀ up rq h, net.upgrade up rq h = .upgraded) →
      c.env.heap.get? p.baseURL ≠ none →
      ((replicateWebsocketConn net.clientWrite net.backendReads 0).errc ≠ [] ∨
        (replicateWebsocketConn net.backendWrite net.clientReads 0).errc ≠ []) →
      lifecycle ((p.proxyWebsocket net c req).env.conns.drop c.env.conns.length)
        = [.openBackend, .openClient, .closeClient, .closeBackend] ∧
      (p.proxyWebsocket net c req).env.blocked = false ∧
      (p.proxyWebsocket net c req).env.panicked = false) := by
  obtain ⟨hblk, hpan⟩ := hrun
  have hsel := selectFirst_isSome net.pick
    (replicateWebsocketConn net.clientWrite net.backendReads 0).errc
    (replicateWebsocketConn net.backendWrite net.clientReads 0).errc
  have hdrop : ∀ l : List ConnEvent, (c.env.conns ++ l).drop c.env.conns.length = l :=
    fun l => List.drop_left _ _
  rcases proxyWebsocket_cases p net c req with
    ⟨hnone, hc, hb, hp⟩ | ⟨url, hdial, -, hc, hb, hp⟩ |
    ⟨url, resp, reply, hd, -, hu, hc, hb, hp⟩ | ⟨url, resp, hd, -, hu, hs, hc, hb, hp⟩ |
    ⟨url, resp, r, hd, -, hu, hs, hc, hb, hp⟩
  · have hc2 : (p.proxyWebsocket net c req).env.conns = c.env.conns ++ [] := by
      rw [hc, List.append_nil]
    rw [hc2, hdrop, hb, hp]
    refine ⟨rfl, fun _ => rfl, fun _ => List.append_nil _, fun _ => ⟨rfl, hblk⟩, ?_, ?_⟩
    · intro _ _ hne
      exact absurd hnone hne
    · intro _ _ hne
      exact absurd hnone hne
  · rw [hc, hdrop, hb, hp]
    refine ⟨rfl, fun _ => rfl, ?_, fun _ => ⟨rfl, hblk⟩, ?_, ?_⟩
    · intro h
      rw [hpan] at h
      cases h
    · intro h
      obtain ⟨r, hr⟩ := h url (requestHeader req)
      exact absurd hr (hdial r)
    · intro h
      obtain ⟨r, hr⟩ := h url (requestHeader req)
      exact absurd hr (hdial r)
  · rw [hc, hdrop, hb, hp]
    refine ⟨rfl, fun _ => rfl, ?_, ?_, fun _ _ _ => ⟨rfl, hblk, hpan⟩, ?_⟩
    · intro h
      rw [hpan] at h
      cases h
    · intro h
      exact absurd hd (h _ _ _)
    · intro _ h
      rw [h] at hu
      cases hu
  · rw [hc, hdrop, hb, hp]
    refine ⟨rfl, ?_, ?_, ?_, ?_, ?_⟩
    · intro h
      cases h
    · intro h
      rw [hpan] at h
      cases h
    · intro h
      exact absurd hd (h _ _ _)
    · intro _ h
      obtain ⟨r1, h1⟩ := h p.upgrader req (upgradeHeader resp)
      rw [h1] at hu
      cases hu
    · intro _ _ _ h
      obtain ⟨r, hr⟩ := hsel h
      rw [hr] at hs
      cases hs
  · rw [hc, hdrop, hb, hp]
    refine ⟨rfl, fun _ => rfl, ?_, ?_, ?_, fun _ _ _ _ => ⟨rfl, hblk, hpan⟩⟩
    · intro h
      rw [hpan] at h
      cases h
    · intro h
      exact absurd hd (h _ _ _)
    · intro _ h
      obtain ⟨r1, h1⟩ := h p.upgrader req (upgradeHeader resp)
      rw [h1] at hu
      cases hu

/-- Witness of C10: the backend accepts, the client upgrade succeeds, the
backend closes first and the client never reports. -/
theorem tunnel_closes_connections_witness :
    lifecycle (((NewProxy 0).proxyWebsocket (acceptingNetwork ⟨101, [], ""⟩)
        ⟨freshWriter, startSys⟩ upgradeRequest).env.conns.drop 0)
      = [.openBackend, .openClient, .closeClient, .closeBackend] ∧
    ((NewProxy 0).proxyWebsocket (acceptingNetwork ⟨101, [], ""⟩)
        ⟨freshWriter, startSys⟩ upgradeRequest).env.blocked = false :=
  have h := tunnel_closes_connections (NewProxy 0) (acceptingNetwork ⟨101, [], ""⟩)
    ⟨freshWriter, startSys⟩ upgradeRequest ⟨rfl, rfl⟩
  have h6 := h.2.2.2.2.2 (fun _ _ => ⟨_, rfl⟩) (fun _ _ _ => rfl) (by decide)
    (Or.inl (by decide))
  ⟨h6.1, h6.2.1⟩

/-! ## The cross-origin headers the client receives -/

theorem index_add_of_ne (h : Header) (key value k : String)
    (hne : CanonicalMIMEHeaderKey key ≠ k) : (h.Add key value).index k = h.index k := by
  unfold Header.Add
  exact Header.index_store_ne h (fun e => hne e.symm) _

theorem index_foldl_add_of_ne (vs : List String) (h : Header) (key k : String)
    (hne : CanonicalMIMEHeaderKey key ≠ k) :
    (vs.foldl (fun dst v => Header.Add dst key v) h).index k = h.index k := by
  induction vs generalizing h with
  | nil => rfl
  | cons v vs ih => rw [List.foldl_cons, ih, index_add_of_ne _ _ _ _ hne]

/-- `copyHeader` leaves a name of `dst` alone when no name of `src` canonicalises
to it. -/
theorem copyHeader_index_of_absent (src dst : Header) (k : String)
    (hsrc : ∀ e ∈ src, CanonicalMIMEHeaderKey e.1 ≠ k) :
    (copyHeader dst src).index k = dst.index k := by
  unfold copyHeader
  induction src generalizing dst with
  | nil => rfl
  | cons e src ih =>
    rw [List.foldl_cons, ih _ (fun e1 h1 => hsrc e1 (List.mem_cons_of_mem _ h1)),
      index_foldl_add_of_ne _ _ _ _ (hsrc e (List.mem_cons_self _ _))]

/-- On the forwarding path the filter does its work: when the upstream sends no
1xx response and its header names are in canonical form, the response the
reverse proxy writes for a request that is neither OPTIONS nor an upgrade
candidate carries, under each of the four cross-origin names, the value the
middleware set. -/
theorem forwarded_response_keeps_cors (table : Char → Char) (net : Network) (baseURL : Addr)
    (c : Ctx Sys) (req : Request) (res : Response)
    (hm : req.Method ≠ "OPTIONS") (hu : ¬ upgradeCandidate table req)
    (hfresh : c.w.sent = none) (hres : net.forward req = ([], some res))
    (hcanon : ∀ k ∈ res.Header.keys, CanonicalMIMEHeaderKey k = k) :
    ∀ k ∈ corsNames,
      (INSECURE_CORS_MIDDLEWARE_FOR_DEVELOPMENT_ONLY ((NewProxy baseURL).ServeHTTP table net)
        c req).w.delivered.index k = (corsHeaders c.w.header req).index k := by
  intro k hk
  obtain ⟨f, out, hf, hout, -, -, -, -, -, -, habs⟩ := newProxy_hook baseURL res
  have habs2 : ∀ e ∈ out.Header, CanonicalMIMEHeaderKey e.1 ≠ k := by
    intro e he heq
    have := habs hcanon e.1 (by simp only [Header.keys, List.mem_map]; exact ⟨e, he, rfl⟩)
    exact this (heq ▸ hk)
  have hb : ¬ stringsContains (stringsToLower table (req.Header.Get "Upgrade")) "websocket"
      = true := fun hb => hu ((contains_lower_iff_candidate table req).mp hb)
  unfold INSECURE_CORS_MIDDLEWARE_FOR_DEVELOPMENT_ONLY Proxy.ServeHTTP
  dsimp only
  rw [if_neg hm, if_neg hb]
  unfold ReverseProxy.ServeHTTP
  simp only [logPrintf, hres, hf, hout, List.foldl_nil]
  have hw : ∀ w : ResponseWriter, w.sent = none →
      (if out.Body = "" then w.WriteHeader out.StatusCode
        else (w.WriteHeader out.StatusCode).Write out.Body).delivered = w.header := by
    intro w hs
    split <;> simp [ResponseWriter.delivered, ResponseWriter.WriteHeader,
      ResponseWriter.Write, hs]
  rw [hw ⟨copyHeader (corsHeaders c.w.header req) out.Header, c.w.sent, c.w.body⟩ hfresh]
  exact copyHeader_index_of_absent _ _ _ habs2

/-- C1 fails on the rejected-handshake path: the backend's
Access-Control-Allow-Origin value is added to the middleware's, so the client
receives the header with two values. -/
theorem rejected_handshake_adds_upstream_cors :
    (INSECURE_CORS_MIDDLEWARE_FOR_DEVELOPMENT_ONLY
        ((NewProxy 0).ServeHTTP id rejectingNetwork) ⟨freshWriter, startSys⟩
        upgradeRequest).w.delivered.index "Access-Control-Allow-Origin"
      = some ["https://example.com", "*"] := by
  decide

/-- After a 1xx response of the upstream the library has cleared the writer's
header map, so the final response of the forwarding path carries only the
upstream's headers: the middleware's four are gone. -/
theorem forwarded_after_early_hints :
    (INSECURE_CORS_MIDDLEWARE_FOR_DEVELOPMENT_ONLY
        ((NewProxy 0).ServeHTTP id
          { deadNetwork with forward := fun _ =>
              ([(103, [("Link", ["</style.css>; rel=preload"])])],
               some ⟨200, [("Content-Type", ["application/json"])], "joke"⟩) })
        ⟨freshWriter, startSys⟩
        (requestOf "GET" "/jokes" [("Origin", ["https://example.com"])])).w.delivered
      = [("Content-Type", ["application/json"])] := by
  decide


end Wasmproxy
